import Mathlib

/-!
Verification of the Serial-JSON-Bridge firmware core against its
natural-language specification.

The development shallowly embeds the two core components:

* the JSMN JSON tokenizer (src/jsmn.c), in its default build
  configuration: JSMN_STRICT and JSMN_PARENT_LINKS are not defined, so the
  non-strict scanning rules and the linear backward scan for container
  matching apply (the spec calls this the default mode);
* the interrupt-driven UART transport driver (src/uart.c).

Bytes of the input buffer are modelled as natural numbers (their ASCII
codes); the token array is modelled as the list of tokens allocated so
far, together with the parser field toknext giving its length.  Machine
integers never overflow on the inputs considered: positions and counts
are Nat, and the int32 fields start, end and toksuper are Int, with the
C idiom (int32_t)(toknext - 1u) for toknext = 0 yielding -1 translated
as integer subtraction.

The type of token kinds and the numeric error codes live in jsmn.h,
which is not part of src/; they are modelled from the spec (sections 3
and 6): kinds {Primitive, String, Object, Array} plus the undefined
default, and codes Invalid = -1, NoMemory = -2, Incomplete = -3.
-/

/-- Modelled from the spec: jsmn.h is not in src/.  Token kinds, spec
section 3: enum {Primitive, String, Object, Array} with the usual JSMN
undefined default for a freshly allocated slot. -/
inductive JsmnType where
  | JSMN_UNDEFINED : JsmnType
  | JSMN_OBJECT : JsmnType
  | JSMN_ARRAY : JsmnType
  | JSMN_STRING : JsmnType
  | JSMN_PRIMITIVE : JsmnType
deriving DecidableEq

/-- Modelled from the spec: jsmn.h is not in src/.  Error codes, spec
section 6: Invalid = -1. -/
def JSMN_ERROR_INVAL : Int := -1

/-- Modelled from the spec: jsmn.h is not in src/.  Error codes, spec
section 6: NoMemory = -2. -/
def JSMN_ERROR_NOMEM : Int := -2

/-- Modelled from the spec: jsmn.h is not in src/.  Error codes, spec
section 6: Incomplete = -3. -/
def JSMN_ERROR_PART : Int := -3

/-- A token: type tag plus byte offsets into the source (src/jsmn.c,
jsmntok_t).  start and end are int32 in C, with -1 as the unset
sentinel written by jsmn_alloc_token. -/
structure Jsmntok where
  type : JsmnType := .JSMN_UNDEFINED
  start : Int := -1
  «end» : Int := -1
  size : Nat := 0
deriving DecidableEq

instance : Inhabited Jsmntok := ⟨{}⟩

/-- Parser cursor (src/jsmn.c, jsmn_parser_t): scan position, index of
the next free token slot, and the index of the innermost open container
token (or -1 for none). -/
structure JsmnParser where
  pos : Nat
  toknext : Nat
  toksuper : Int
deriving DecidableEq

/-- jsmn_init: fresh cursor (src/jsmn.c lines 622-628). -/
def jsmn_init : JsmnParser := { pos := 0, toknext := 0, toksuper := -1 }

/- Character code constants of src/jsmn.c lines 19-49, as byte values. -/

def CHAR_QUOTE : Nat := 34
def CHAR_BACKSLASH : Nat := 92
def CHAR_FORWARD_SLASH : Nat := 47
def CHAR_BACKSPACE : Nat := 98
def CHAR_FORM_FEED : Nat := 102
def CHAR_CARRIAGE_RET : Nat := 114
def CHAR_NEWLINE : Nat := 110
def CHAR_TAB : Nat := 116
def CHAR_UNICODE : Nat := 117
def CHAR_BRACE_OPEN : Nat := 123
def CHAR_BRACE_CLOSE : Nat := 125
def CHAR_BRACKET_OPEN : Nat := 91
def CHAR_BRACKET_CLOSE : Nat := 93
def CHAR_COLON : Nat := 58
def CHAR_COMMA : Nat := 44
def CHAR_SPACE : Nat := 32
def CHAR_NULL : Nat := 0
def CHAR_LF : Nat := 10
def CHAR_CR : Nat := 13
def CHAR_HTAB : Nat := 9
def ASCII_PRINTABLE_MIN : Nat := 32
def ASCII_PRINTABLE_MAX : Nat := 127
def ASCII_DIGIT_0 : Nat := 48
def ASCII_DIGIT_9 : Nat := 57
def ASCII_UPPER_A : Nat := 65
def ASCII_UPPER_F : Nat := 70
def ASCII_LOWER_A : Nat := 97
def ASCII_LOWER_F : Nat := 102
def UNICODE_HEX_DIGITS : Nat := 4

/-- The allowed simple escape characters after a backslash
(src/jsmn.c lines 273-280). -/
def isEscapeChar (c : Nat) : Bool :=
  c = CHAR_QUOTE || c = CHAR_FORWARD_SLASH || c = CHAR_BACKSLASH ||
  c = CHAR_BACKSPACE || c = CHAR_FORM_FEED || c = CHAR_CARRIAGE_RET ||
  c = CHAR_NEWLINE || c = CHAR_TAB

/-- Hexadecimal digit test of src/jsmn.c lines 297-302:
0-9, A-F or a-f by ASCII ranges. -/
def isHexDigit (c : Nat) : Bool :=
  (ASCII_DIGIT_0 ≤ c && c ≤ ASCII_DIGIT_9) ||
  (ASCII_UPPER_A ≤ c && c ≤ ASCII_UPPER_F) ||
  (ASCII_LOWER_A ≤ c && c ≤ ASCII_LOWER_F)

/-- The hex-digit loop of the unicode escape (src/jsmn.c lines 288-311):
starting right after the u with a budget of n = 4 characters, consume
hex digits while in bounds and not at a NUL; none signals the invalid
return for a non-hex character, some p is the exit position of the loop
(the later pos-- and the for-update pos++ of the enclosing loop cancel,
so scanning resumes exactly at p). -/
def hexScan (js : List Nat) (len : Nat) : Nat → Nat → Option Nat
  | 0, pos => some pos
  | Nat.succ n, pos =>
    if pos < len ∧ js.getD pos 0 ≠ CHAR_NULL then
      if isHexDigit (js.getD pos 0) then hexScan js len n (pos + 1)
      else none
    else some pos

/-- Outcome of the character loop of jsmn_parse_string. -/
inductive StrOut where
  | closed : Nat → StrOut
  | invalid : StrOut
  | part : StrOut
deriving DecidableEq

/-- The character loop of jsmn_parse_string (src/jsmn.c lines 235-324),
from position pos (the first character after the opening quote when
called from jsmn_parse_string): an unescaped quote at q closes the
string; a backslash with a following character inside the buffer
demands a simple escape (skip 2), a unicode escape (delegated to
hexScan), or fails invalid; falling off the buffer or hitting a NUL
gives the incomplete outcome. -/
def strLoop (js : List Nat) (len : Nat) (pos : Nat) : StrOut :=
  if h : pos < len ∧ js.getD pos 0 ≠ CHAR_NULL then
    if js.getD pos 0 = CHAR_QUOTE then .closed pos
    else if js.getD pos 0 = CHAR_BACKSLASH then
      if h1 : pos + 1 < len then
        if isEscapeChar (js.getD (pos + 1) 0) then strLoop js len (pos + 2)
        else if js.getD (pos + 1) 0 = CHAR_UNICODE then
          match h4 : hexScan js len UNICODE_HEX_DIGITS (pos + 2) with
          | none => .invalid
          | some p => strLoop js len p
        else .invalid
      else strLoop js len (pos + 1)
    else strLoop js len (pos + 1)
  else .part
termination_by len - pos
decreasing_by
  all_goals
    first
      | omega
      | · have hge : pos + 2 ≤ p := by
            have hmono : ∀ n q r, hexScan js len n q = some r → q ≤ r := by
              intro n
              induction n with
              | zero => intro q r hq; simp [hexScan] at hq; omega
              | succ m ih =>
                intro q r hq
                simp only [hexScan] at hq
                split at hq
                · split at hq
                  · have := ih (q + 1) r hq; omega
                  · exact absurd hq (by simp)
                · simp at hq; omega
            exact hmono UNICODE_HEX_DIGITS (pos + 2) p h4
          omega

/-- jsmn_parse_string (src/jsmn.c lines 223-328).  The C function walks
parser.pos itself; here the walk is strLoop and the function performs
the allocation and the error returns of the C code on its outcome.  On
close at q with a token array, the token slot is allocated
(jsmn_alloc_token) and filled to the span excluding the quotes
(jsmn_fill_token with start+1 and q), and the cursor rests on the
closing quote; on no-memory and on the two error outcomes the cursor is
reset to the opening quote. -/
def jsmn_parse_string (p : JsmnParser) (js : List Nat) (len : Nat)
    (tokens : Option (List Jsmntok)) (num_tokens : Nat) :
    Int × JsmnParser × Option (List Jsmntok) :=
  match strLoop js len (p.pos + 1) with
  | .closed q =>
    match tokens with
    | none => (0, { p with pos := q }, none)
    | some ts =>
      if p.toknext < num_tokens then
        (0, { p with pos := q, toknext := p.toknext + 1 },
         some (ts ++ [{ type := .JSMN_STRING, start := (p.pos : Int) + 1,
                        «end» := (q : Int), size := 0 }]))
      else (JSMN_ERROR_NOMEM, { p with pos := p.pos }, some ts)
  | .invalid => (JSMN_ERROR_INVAL, { p with pos := p.pos }, tokens)
  | .part => (JSMN_ERROR_PART, { p with pos := p.pos }, tokens)

/-- The delimiters ending a primitive (src/jsmn.c lines 142-150; the
colon is accepted because JSMN_STRICT is not defined). -/
def isPrimDelim (c : Nat) : Bool :=
  c = CHAR_COLON || c = CHAR_HTAB || c = CHAR_CR || c = CHAR_LF ||
  c = CHAR_SPACE || c = CHAR_COMMA || c = CHAR_BRACKET_CLOSE ||
  c = CHAR_BRACE_CLOSE

/-- The character loop of jsmn_parse_primitive (src/jsmn.c lines
136-175): none signals the invalid return for a character outside
printable ASCII, some e is the exit position (a delimiter, the end of
the buffer, or a NUL). -/
def primLoop (js : List Nat) (len : Nat) (pos : Nat) : Option Nat :=
  if h : pos < len ∧ js.getD pos 0 ≠ CHAR_NULL then
    if isPrimDelim (js.getD pos 0) then some pos
    else if js.getD pos 0 < ASCII_PRINTABLE_MIN ∨
            ASCII_PRINTABLE_MAX ≤ js.getD pos 0 then none
    else primLoop js len (pos + 1)
  else some pos
termination_by len - pos
decreasing_by omega

/-- jsmn_parse_primitive (src/jsmn.c lines 127-209), with JSMN_STRICT
not defined (no trailing-delimiter requirement).  On success the cursor
is left one position before the exit of the scan (the pos-- of lines
188 and 207), on failure it is reset to the start of the primitive. -/
def jsmn_parse_primitive (p : JsmnParser) (js : List Nat) (len : Nat)
    (tokens : Option (List Jsmntok)) (num_tokens : Nat) :
    Int × JsmnParser × Option (List Jsmntok) :=
  match primLoop js len p.pos with
  | none => (JSMN_ERROR_INVAL, { p with pos := p.pos }, tokens)
  | some epos =>
    match tokens with
    | none => (0, { p with pos := epos - 1 }, none)
    | some ts =>
      if p.toknext < num_tokens then
        (0, { p with pos := epos - 1, toknext := p.toknext + 1 },
         some (ts ++ [{ type := .JSMN_PRIMITIVE, start := (p.pos : Int),
                        «end» := (epos : Int), size := 0 }]))
      else (JSMN_ERROR_NOMEM, { p with pos := p.pos }, some ts)

/-- Exit of the scan loop of jsmn_parse: err is an early return with a
negative code (C return statements inside the loop), done is the normal
end of the scan (pos at len or at a NUL) carrying the running token
count. -/
inductive LoopExit where
  | err : Int → JsmnParser → Option (List Jsmntok) → LoopExit
  | done : Int → JsmnParser → Option (List Jsmntok) → LoopExit
deriving DecidableEq

/-- An allocated token that is open but not yet terminated: start is
set, end still carries the -1 sentinel (the test of src/jsmn.c lines
421, 449, 472, 529-530, 606). -/
def isOpenTok (t : Jsmntok) : Bool :=
  t.start ≠ -1 && t.«end» = -1

/-- The size++ updates on the enclosing token (src/jsmn.c lines 388,
495, 586).  Out-of-range indices never occur on the reachable states;
the C code would index out of bounds there, the model leaves the list
unchanged. -/
def sizeIncr (ts : List Jsmntok) (i : Nat) : List Jsmntok :=
  match ts.get? i with
  | some t => ts.set i { t with size := t.size + 1 }
  | none => ts

/-- Backward scan from index i down to 0 for the nearest still-open
token (the loop of src/jsmn.c lines 445-460 and 468-477). -/
def findOpenDown (ts : List Jsmntok) : Nat → Option Nat
  | 0 => if isOpenTok (ts.getD 0 default) then some 0 else none
  | i + 1 =>
    if isOpenTok (ts.getD (i + 1) default) then some (i + 1)
    else findOpenDown ts i

/-- The first backward scan of the closing-delimiter case starts at
toknext - 1; with no allocated token the C loop body never runs and the
scan fails (i reaches -1). -/
def jsmn_find_open (ts : List Jsmntok) (toknext : Nat) : Option Nat :=
  match toknext with
  | 0 => none
  | n + 1 => findOpenDown ts n

/-- Backward scan for the nearest open Object or Array token (the comma
case, src/jsmn.c lines 524-536): the kind is tested first, openness
second, exactly as in the C condition nesting. -/
def findOpenContainerDown (ts : List Jsmntok) : Nat → Option Nat
  | 0 =>
    if (ts.getD 0 default).type = JsmnType.JSMN_ARRAY ∨
       (ts.getD 0 default).type = JsmnType.JSMN_OBJECT then
      if isOpenTok (ts.getD 0 default) then some 0 else none
    else none
  | i + 1 =>
    if (ts.getD (i + 1) default).type = JsmnType.JSMN_ARRAY ∨
       (ts.getD (i + 1) default).type = JsmnType.JSMN_OBJECT then
      if isOpenTok (ts.getD (i + 1) default) then some (i + 1)
      else findOpenContainerDown ts i
    else findOpenContainerDown ts i

/-- Entry point of the comma-case backward scan, again from
toknext - 1, with an empty scan when nothing is allocated. -/
def jsmn_find_open_container (ts : List Jsmntok) (toknext : Nat) :
    Option Nat :=
  match toknext with
  | 0 => none
  | n + 1 => findOpenContainerDown ts n

/-- The size++ on the enclosing token performed by the open, string and
primitive cases when a super token exists (src/jsmn.c lines 377-393,
493-496, 584-587), as the token-array transformation. -/
def jsmn_super_size_incr (ts : List Jsmntok) (toksuper : Int) :
    List Jsmntok :=
  if toksuper ≠ -1 then sizeIncr ts toksuper.toNat else ts

/-- Option-level wrapper of jsmn_super_size_incr: the C code guards the
size++ by NULL != p_tokens as well. -/
def jsmn_child_size_incr (tokens : Option (List Jsmntok))
    (toksuper : Int) : Option (List Jsmntok) :=
  if toksuper ≠ -1 then
    match tokens with
    | some ts => some (sizeIncr ts toksuper.toNat)
    | none => none
  else tokens

/-- The second backward loop of the closing-delimiter case (src/jsmn.c
lines 468-477): from the index of the just-closed token downward, the
nearest still-open token becomes the new innermost container, or -1
when none is open. -/
def jsmn_close_super (ts : List Jsmntok) (i : Nat) : Int :=
  match findOpenDown ts i with
  | some j => (j : Int)
  | none => -1

/-- The comma-case recomputation of the innermost container (src/jsmn.c
lines 514-539): only when the current super token exists and is neither
Array nor Object, scan backward for the nearest open container; if none
is found the super index is left unchanged. -/
def jsmn_comma_super (ts : List Jsmntok) (toknext : Nat)
    (toksuper : Int) : Int :=
  if toksuper ≠ -1 ∧
     (ts.getD toksuper.toNat default).type ≠ JsmnType.JSMN_ARRAY ∧
     (ts.getD toksuper.toNat default).type ≠ JsmnType.JSMN_OBJECT then
    match jsmn_find_open_container ts toknext with
    | some j => (j : Int)
    | none => toksuper
  else toksuper

/-- Option-level wrapper of jsmn_comma_super: with a NULL token array
the C comma case leaves the super index unchanged. -/
def jsmn_comma_super_opt (tokens : Option (List Jsmntok))
    (toknext : Nat) (toksuper : Int) : Int :=
  match tokens with
  | some ts => jsmn_comma_super ts toknext toksuper
  | none => toksuper

/-- The scan loop of jsmn_parse (src/jsmn.c lines 353-599), one
character per iteration, dispatching on the current byte exactly as the
C switch does (JSMN_STRICT not defined, so the default case scans a
primitive).  count is the running token count (int count of the C
code). -/
def jsmnLoop (js : List Nat) (len : Nat) (num_tokens : Nat)
    (p : JsmnParser) (tokens : Option (List Jsmntok)) (count : Int) :
    LoopExit :=
  if h : p.pos < len ∧ js.getD p.pos 0 ≠ CHAR_NULL then
    if hopen : js.getD p.pos 0 = CHAR_BRACE_OPEN ∨
               js.getD p.pos 0 = CHAR_BRACKET_OPEN then
      match tokens with
      | none =>
        jsmnLoop js len num_tokens { p with pos := p.pos + 1 } none
          (count + 1)
      | some ts =>
        if p.toknext < num_tokens then
          jsmnLoop js len num_tokens
            { pos := p.pos + 1, toknext := p.toknext + 1,
              toksuper := (p.toknext : Int) }
            (some (jsmn_super_size_incr ts p.toksuper ++
                   [{ type := if js.getD p.pos 0 = CHAR_BRACE_OPEN then
                        .JSMN_OBJECT else .JSMN_ARRAY,
                      start := (p.pos : Int), «end» := -1, size := 0 }]))
            (count + 1)
        else .err JSMN_ERROR_NOMEM p (some ts)
    else if hclose : js.getD p.pos 0 = CHAR_BRACE_CLOSE ∨
                     js.getD p.pos 0 = CHAR_BRACKET_CLOSE then
      match tokens with
      | none =>
        jsmnLoop js len num_tokens { p with pos := p.pos + 1 } none count
      | some ts =>
        match jsmn_find_open ts p.toknext with
        | none => .err JSMN_ERROR_INVAL p (some ts)
        | some i =>
          if (if js.getD p.pos 0 = CHAR_BRACE_CLOSE then
                JsmnType.JSMN_OBJECT else .JSMN_ARRAY) ≠
             (ts.getD i default).type then
            .err JSMN_ERROR_INVAL p (some ts)
          else
            jsmnLoop js len num_tokens
              { p with
                pos := p.pos + 1
                toksuper :=
                  jsmn_close_super
                    (ts.set i
                      { ts.getD i default with
                        «end» := (p.pos : Int) + 1 }) i }
              (some (ts.set i
                { ts.getD i default with «end» := (p.pos : Int) + 1 }))
              count
    else if hquote : js.getD p.pos 0 = CHAR_QUOTE then
      if hr : (jsmn_parse_string p js len tokens num_tokens).1 < 0 then
        .err (jsmn_parse_string p js len tokens num_tokens).1
          (jsmn_parse_string p js len tokens num_tokens).2.1
          (jsmn_parse_string p js len tokens num_tokens).2.2
      else
        jsmnLoop js len num_tokens
          { (jsmn_parse_string p js len tokens num_tokens).2.1 with
            pos :=
              (jsmn_parse_string p js len tokens num_tokens).2.1.pos + 1 }
          (jsmn_child_size_incr
            (jsmn_parse_string p js len tokens num_tokens).2.2
            (jsmn_parse_string p js len tokens num_tokens).2.1.toksuper)
          (count + 1)
    else if hws : js.getD p.pos 0 = CHAR_HTAB ∨ js.getD p.pos 0 = CHAR_CR ∨
                  js.getD p.pos 0 = CHAR_LF ∨
                  js.getD p.pos 0 = CHAR_SPACE then
      jsmnLoop js len num_tokens { p with pos := p.pos + 1 } tokens count
    else if hcolon : js.getD p.pos 0 = CHAR_COLON then
      jsmnLoop js len num_tokens
        { p with pos := p.pos + 1, toksuper := (p.toknext : Int) - 1 }
        tokens count
    else if hcomma : js.getD p.pos 0 = CHAR_COMMA then
      jsmnLoop js len num_tokens
        { p with
          pos := p.pos + 1
          toksuper := jsmn_comma_super_opt tokens p.toknext p.toksuper }
        tokens count
    else
      if hr : (jsmn_parse_primitive p js len tokens num_tokens).1 < 0 then
        .err (jsmn_parse_primitive p js len tokens num_tokens).1
          (jsmn_parse_primitive p js len tokens num_tokens).2.1
          (jsmn_parse_primitive p js len tokens num_tokens).2.2
      else
        jsmnLoop js len num_tokens
          { (jsmn_parse_primitive p js len tokens num_tokens).2.1 with
            pos :=
              (jsmn_parse_primitive p js len tokens
                 num_tokens).2.1.pos + 1 }
          (jsmn_child_size_incr
            (jsmn_parse_primitive p js len tokens num_tokens).2.2
            (jsmn_parse_primitive p js len tokens num_tokens).2.1.toksuper)
          (count + 1)
  else .done count p tokens
termination_by len - p.pos
decreasing_by
  all_goals
  first
  | omega
  | · have hstrge : ∀ q0 e0, strLoop js len q0 = StrOut.closed e0 →
          q0 ≤ e0 := by
        have hhex : ∀ n a r0, hexScan js len n a = some r0 → a ≤ r0 := by
          intro n
          induction n with
          | zero => intro a r0 hq; simp [hexScan] at hq; omega
          | succ m ih =>
            intro a r0 hq
            simp only [hexScan] at hq
            split at hq
            · split at hq
              · have := ih (a + 1) r0 hq; omega
              · exact absurd hq (by simp)
            · simp at hq; omega
        have main : ∀ d q0 e0, len - q0 ≤ d →
            strLoop js len q0 = StrOut.closed e0 → q0 ≤ e0 := by
          intro d
          induction d with
          | zero =>
            intro q0 e0 hd hcl
            rw [strLoop.eq_def] at hcl
            split at hcl
            · omega
            · exact absurd hcl (by simp)
          | succ m ih =>
            intro q0 e0 hd hcl
            rw [strLoop.eq_def] at hcl
            split at hcl
            case isTrue hin =>
              split at hcl
              · simp at hcl; omega
              · split at hcl
                · split at hcl
                  · split at hcl
                    · have := ih (q0 + 2) e0 (by omega) hcl; omega
                    · split at hcl
                      · split at hcl
                        · exact absurd hcl (by simp)
                        · rename_i pq h4q
                          have hp :=
                            hhex UNICODE_HEX_DIGITS (q0 + 2) pq h4q
                          have := ih pq e0 (by omega) hcl
                          omega
                      · exact absurd hcl (by simp)
                  · have := ih (q0 + 1) e0 (by omega) hcl; omega
                · have := ih (q0 + 1) e0 (by omega) hcl; omega
            case isFalse hin => exact absurd hcl (by simp)
        intro q0 e0 hcl
        exact main (len - q0) q0 e0 (by omega) hcl
      have hkey : p.pos + 1 ≤
          (jsmn_parse_string p js len tokens num_tokens).2.1.pos := by
        rcases hsl : strLoop js len (p.pos + 1) with q | _ | _
        · have hge := hstrge (p.pos + 1) q hsl
          simp only [jsmn_parse_string, hsl] at hr ⊢
          rcases tokens with _ | ts
          · simp; omega
          · by_cases hcap : p.toknext < num_tokens
            · simp [hcap]; omega
            · simp [hcap, JSMN_ERROR_NOMEM] at hr
        · simp only [jsmn_parse_string, hsl] at hr
          simp [JSMN_ERROR_INVAL] at hr
        · simp only [jsmn_parse_string, hsl] at hr
          simp [JSMN_ERROR_PART] at hr
      omega
  | · have hprimge : ∀ q0 e0, primLoop js len q0 = some e0 → q0 ≤ e0 := by
        have main : ∀ d q0 e0, len - q0 ≤ d →
            primLoop js len q0 = some e0 → q0 ≤ e0 := by
          intro d
          induction d with
          | zero =>
            intro q0 e0 hd hpl
            rw [primLoop.eq_def] at hpl
            split at hpl
            · omega
            · simp at hpl; omega
          | succ m ih =>
            intro q0 e0 hd hpl
            rw [primLoop.eq_def] at hpl
            split at hpl
            case isTrue hin =>
              split at hpl
              · simp at hpl; omega
              · split at hpl
                · exact absurd hpl (by simp)
                · have := ih (q0 + 1) e0 (by omega) hpl; omega
            case isFalse hin => simp at hpl; omega
        intro q0 e0 hpl
        exact main (len - q0) q0 e0 (by omega) hpl
      have hstep : ∀ e0, primLoop js len p.pos = some e0 →
          p.pos + 1 ≤ e0 := by
        intro e0 hpl
        rw [primLoop.eq_def] at hpl
        split at hpl
        case isTrue hin =>
          split at hpl
          case isTrue hdel =>
            simp [isPrimDelim, CHAR_COLON, CHAR_HTAB, CHAR_CR, CHAR_LF,
                  CHAR_SPACE, CHAR_COMMA, CHAR_BRACKET_CLOSE,
                  CHAR_BRACE_CLOSE] at hdel
            simp [CHAR_BRACE_CLOSE, CHAR_BRACKET_CLOSE] at hclose
            simp [CHAR_HTAB, CHAR_CR, CHAR_LF, CHAR_SPACE] at hws
            simp [CHAR_COLON] at hcolon
            simp [CHAR_COMMA] at hcomma
            omega
          case isFalse hdel =>
            split at hpl
            · exact absurd hpl (by simp)
            · have := hprimge _ _ hpl; omega
        case isFalse hin => exact absurd h hin
      have hkey : p.pos ≤
          (jsmn_parse_primitive p js len tokens num_tokens).2.1.pos := by
        rcases hpl : primLoop js len p.pos with _ | epos
        · simp only [jsmn_parse_primitive, hpl] at hr
          simp [JSMN_ERROR_INVAL] at hr
        · have hge := hstep epos hpl
          simp only [jsmn_parse_primitive, hpl] at hr ⊢
          rcases tokens with _ | ts
          · simp; omega
          · by_cases hcap : p.toknext < num_tokens
            · simp [hcap]; omega
            · simp [hcap, JSMN_ERROR_NOMEM] at hr
      omega

/-- jsmn_parse (src/jsmn.c lines 342-614): runs the scan loop from the
given cursor with count initialised to toknext, then, when a token
array is present and the scan completed, performs the final check of
lines 601-611, guarded exactly as in C by the NULL test on the token
array argument: any allocated token whose end is still unset makes the
whole call fail with the Incomplete code; in counting mode (no token
array) the final check is skipped and the loop result is returned as
is.  The inner arm for a vanished array is unreachable (a loop started
on an array always hands an array back) and mirrors the C code reading
the array only under the guard. -/
def jsmn_parse (p : JsmnParser) (js : List Nat) (len : Nat)
    (tokens : Option (List Jsmntok)) (num_tokens : Nat) :
    Int × JsmnParser × Option (List Jsmntok) :=
  match jsmnLoop js len num_tokens p tokens ((p.toknext : Int)) with
  | .err r p2 tokens2 => (r, p2, tokens2)
  | .done c p2 tokens2 =>
    match tokens with
    | none => (c, p2, tokens2)
    | some _ =>
      match tokens2 with
      | some ts =>
        if ts.any isOpenTok then (JSMN_ERROR_PART, p2, some ts)
        else (c, p2, some ts)
      | none => (c, p2, none)

/-!
UART transport driver (src/uart.c).  The driver state is the collection
of the global variables of uart.c together with the two interrupt
enable bits of USART_CR1 that the driver toggles.  Writes to the data
register USART_TDR and to the error-clear register USART_ICR are
modelled as append-only logs, so that a theorem can state that a call
transmitted no byte or cleared a given flag.  The hardware inputs of
the interrupt handler (the USART_ISR flags and the received byte in
USART_RDR) are parameters of the handler.  Interrupt atomicity: the C
entry points disable interrupts around the read-modify-write of the
state variable; in the model every entry point and the handler are
single atomic steps, which is exactly the state-interleaving discipline
those critical sections enforce.
-/

/-- uart_state_t (src/uart.h lines 26-32). -/
inductive UartState where
  | UART_STATE_IDLE : UartState
  | UART_STATE_TX_BUSY : UartState
  | UART_STATE_RX_BUSY : UartState
  | UART_STATE_ERROR : UartState
deriving DecidableEq

/-- uart_error_t (src/uart.h lines 35-42). -/
inductive UartError where
  | UART_ERROR_NONE : UartError
  | UART_ERROR_OVERRUN : UartError
  | UART_ERROR_FRAMING : UartError
  | UART_ERROR_PARITY : UartError
  | UART_ERROR_NOISE : UartError
deriving DecidableEq

/-- RX_BUFFER_SIZE_BYTES (src/uart.h line 16). -/
def RX_BUFFER_SIZE_BYTES : Nat := 100

/- USART interrupt and status bit positions (src/uart.c lines 30-37). -/

def USART_CR1_TXEIE_BIT : Nat := 7
def USART_CR1_RXNEIE_BIT : Nat := 5
def USART_ISR_ORE_BIT : Nat := 3
def USART_ISR_FE_BIT : Nat := 2
def USART_ISR_NF_BIT : Nat := 1
def USART_ISR_PE_BIT : Nat := 0

/-- The driver state: the global variables of src/uart.c lines 58-66,
the TXEIE and RXNEIE bits of USART_CR1, and the two hardware write
logs. -/
structure UartDriver where
  g_p_tx_buffer : Option (List Nat)
  g_tx_length : Nat
  g_tx_index : Nat
  g_rx_index : Nat
  g_rx_buffer : List Nat
  g_tx_state : UartState
  g_rx_state : UartState
  g_error : UartError
  cr1_txeie : Bool
  cr1_rxneie : Bool
  tdr_log : List Nat
  icr_log : List Nat
deriving DecidableEq

/-- Reset driver state as established by the C initialisers of
src/uart.c lines 58-66: both halves Idle, no error, indices zero, the
receive buffer zero-filled, no interrupt source enabled. -/
def uart_reset_state : UartDriver :=
  { g_p_tx_buffer := none, g_tx_length := 0, g_tx_index := 0,
    g_rx_index := 0,
    g_rx_buffer := List.replicate RX_BUFFER_SIZE_BYTES 0,
    g_tx_state := .UART_STATE_IDLE, g_rx_state := .UART_STATE_IDLE,
    g_error := .UART_ERROR_NONE, cr1_txeie := false,
    cr1_rxneie := false, tdr_log := [], icr_log := [] }

/-- uart_transmit_buffer (src/uart.c lines 205-234).  p_str none is the
NULL pointer.  The critical section of lines 214-223 is the atomic
check-and-set of g_tx_state; the function never touches USART_TDR. -/
def uart_transmit_buffer (p_str : Option (List Nat)) (s : UartDriver) :
    Int × UartDriver :=
  match p_str with
  | none => (-1, s)
  | some str =>
    if s.g_tx_state ≠ .UART_STATE_IDLE then (-2, s)
    else
      (0, { s with g_tx_state := .UART_STATE_TX_BUSY,
                   g_p_tx_buffer := some str,
                   g_tx_length := str.length,
                   g_tx_index := 0,
                   cr1_txeie := true })

/-- uart_receive_buffer (src/uart.c lines 245-264). -/
def uart_receive_buffer (s : UartDriver) : Int × UartDriver :=
  if s.g_rx_state ≠ .UART_STATE_IDLE then (-1, s)
  else
    (0, { s with g_rx_state := .UART_STATE_RX_BUSY,
                 cr1_rxneie := true })

/-- The hardware status flags read from USART_ISR by the interrupt
handler, plus the received data byte in USART_RDR. -/
structure UsartIsr where
  txe : Bool
  rxne : Bool
  ore : Bool
  fe : Bool
  nf : Bool
  pe : Bool
deriving DecidableEq

/-- TX branch of USART2_IRQHandler (src/uart.c lines 280-295): runs when
the TXE flag is up and the transmitter is busy; either pushes the next
byte to USART_TDR or finishes the transmission. -/
def uart_isr_tx (f : UsartIsr) (s : UartDriver) : UartDriver :=
  if f.txe ∧ s.g_tx_state = .UART_STATE_TX_BUSY then
    match s.g_p_tx_buffer with
    | some buf =>
      if s.g_tx_index < s.g_tx_length then
        { s with tdr_log := s.tdr_log ++ [buf.getD s.g_tx_index 0],
                 g_tx_index := s.g_tx_index + 1 }
      else
        { s with cr1_txeie := false, g_p_tx_buffer := none,
                 g_tx_state := .UART_STATE_IDLE }
    | none =>
      { s with cr1_txeie := false, g_p_tx_buffer := none,
               g_tx_state := .UART_STATE_IDLE }
  else s

/-- RX branch of USART2_IRQHandler (src/uart.c lines 297-366): runs when
the RXNE flag is up and the receiver is busy.  With any hardware error
flag set it disables RXNEIE, moves to the Error state and classifies the
error in the fixed priority order overrun, framing, parity, noise,
writing the matching clear bit to USART_ICR; with no error it stores
the byte when capacity remains (one byte is reserved for the
terminator) and closes the line on LF or CR. -/
def uart_isr_rx (f : UsartIsr) (rdr : Nat) (s : UartDriver) :
    UartDriver :=
  if f.rxne ∧ s.g_rx_state = .UART_STATE_RX_BUSY then
    if ¬(f.ore || f.fe || f.nf || f.pe) then
      let s1 := { s with g_error := .UART_ERROR_NONE }
      if s1.g_rx_index < RX_BUFFER_SIZE_BYTES - 1 then
        let s2 := { s1 with
                    g_rx_buffer := s1.g_rx_buffer.set s1.g_rx_index rdr,
                    g_rx_index := s1.g_rx_index + 1 }
        if s2.g_rx_index > 0 ∧
           (s2.g_rx_buffer.getD (s2.g_rx_index - 1) 0 = 10 ∨
            s2.g_rx_buffer.getD (s2.g_rx_index - 1) 0 = 13) then
          { s2 with
            g_rx_buffer := s2.g_rx_buffer.set s2.g_rx_index 0,
            g_rx_state := .UART_STATE_IDLE,
            cr1_rxneie := false }
        else s2
      else
        { s1 with cr1_rxneie := false,
                  g_rx_state := .UART_STATE_IDLE }
    else
      let s1 := { s with cr1_rxneie := false,
                         g_rx_state := .UART_STATE_ERROR }
      if f.ore then
        { s1 with icr_log := s1.icr_log ++ [USART_ISR_ORE_BIT],
                  g_error := .UART_ERROR_OVERRUN }
      else if f.fe then
        { s1 with icr_log := s1.icr_log ++ [USART_ISR_FE_BIT],
                  g_error := .UART_ERROR_FRAMING }
      else if f.pe then
        { s1 with icr_log := s1.icr_log ++ [USART_ISR_PE_BIT],
                  g_error := .UART_ERROR_PARITY }
      else if f.nf then
        { s1 with icr_log := s1.icr_log ++ [USART_ISR_NF_BIT],
                  g_error := .UART_ERROR_NOISE }
      else s1
  else s

/-- USART2_IRQHandler (src/uart.c lines 274-367): the TX branch, then
the RX branch on the resulting state, in the order of the C code. -/
def USART2_IRQHandler (f : UsartIsr) (rdr : Nat) (s : UartDriver) :
    UartDriver :=
  uart_isr_rx f rdr (uart_isr_tx f s)

/-- uart_error_reset (src/uart.c lines 376-386). -/
def uart_error_reset (s : UartDriver) : UartDriver :=
  if s.g_rx_state = .UART_STATE_ERROR then
    { s with g_rx_state := .UART_STATE_RX_BUSY,
             g_error := .UART_ERROR_NONE,
             g_rx_index := 0,
             cr1_rxneie := true }
  else s

/-- The tokens held by a loop exit (the final contents of the caller's
token array). -/
def exitTokens : LoopExit → Option (List Jsmntok)
  | .err _ _ o => o
  | .done _ _ o => o

/-- The byte span a token denotes: source bytes from start (inclusive)
to end (exclusive), the zero-copy view of the spec. -/
def tokenSlice (js : List Nat) (t : Jsmntok) : List Nat :=
  (js.take t.«end».toNat).drop t.start.toNat

/-- Per-token facts that hold for every allocated token whenever the
scan loop gives the token array back: a set start is nonnegative, a set
end is at least start, and a String token spans exactly the bytes
between a pair of quote characters of the source. -/
def TokBase (js : List Nat) (t : Jsmntok) : Prop :=
  0 ≤ t.start ∧
  (t.«end» = -1 ∨ t.start ≤ t.«end») ∧
  (t.type = .JSMN_STRING →
    1 ≤ t.start ∧ t.start ≤ t.«end» ∧
    js.getD (t.start - 1).toNat 0 = CHAR_QUOTE ∧
    js.getD t.«end».toNat 0 = CHAR_QUOTE)

/-- Loop invariant for the allocated tokens at scan position pos: the
per-token facts together with the bound start ≤ pos (a token starts at
a position the scan has already visited). -/
def TokInv (js : List Nat) (pos : Nat) (t : Jsmntok) : Prop :=
  TokBase js t ∧ t.start ≤ (pos : Int)

/-- The hex-digit loop never moves the cursor backwards. -/
theorem hexScan_ge (js : List Nat) (len : Nat) :
    ∀ n a r, hexScan js len n a = some r → a ≤ r := by
  intro n
  induction n with
  | zero => intro a r hq; simp [hexScan] at hq; omega
  | succ m ih =>
    intro a r hq
    simp only [hexScan] at hq
    split at hq
    · split at hq
      · have := ih (a + 1) r hq; omega
      · exact absurd hq (by simp)
    · simp at hq; omega

/-- A string scan that closes at e closed on a quote character at e, at
or after the scan entry position. -/
theorem strLoop_closed_facts (js : List Nat) (len : Nat) (q e : Nat)
    (hcl : strLoop js len q = .closed e) :
    q ≤ e ∧ js.getD e 0 = CHAR_QUOTE := by
  have main : ∀ d q e, len - q ≤ d → strLoop js len q = .closed e →
      q ≤ e ∧ js.getD e 0 = CHAR_QUOTE := by
    intro d
    induction d with
    | zero =>
      intro q e hd hcl
      rw [strLoop.eq_def] at hcl
      split at hcl
      · omega
      · exact absurd hcl (by simp)
    | succ m ih =>
      intro q e hd hcl
      rw [strLoop.eq_def] at hcl
      split at hcl
      case isTrue hin =>
        split at hcl
        case isTrue hqc =>
          simp at hcl
          constructor
          · omega
          · rw [← hcl]; exact hqc
        case isFalse hqc =>
          split at hcl
          · split at hcl
            · split at hcl
              · have := ih (q + 2) e (by omega) hcl
                exact ⟨by omega, this.2⟩
              · split at hcl
                · split at hcl
                  · exact absurd hcl (by simp)
                  · rename_i pq h4q
                    have hp := hexScan_ge js len UNICODE_HEX_DIGITS
                      (q + 2) pq h4q
                    have := ih pq e (by omega) hcl
                    exact ⟨by omega, this.2⟩
                · exact absurd hcl (by simp)
            · have := ih (q + 1) e (by omega) hcl
              exact ⟨by omega, this.2⟩
          · have := ih (q + 1) e (by omega) hcl
            exact ⟨by omega, this.2⟩
      case isFalse hin => exact absurd hcl (by simp)
  exact main (len - q) q e (by omega) hcl

/-- The primitive scan never moves the cursor backwards. -/
theorem primLoop_ge (js : List Nat) (len : Nat) (q e : Nat)
    (hpl : primLoop js len q = some e) : q ≤ e := by
  have main : ∀ d q e, len - q ≤ d → primLoop js len q = some e →
      q ≤ e := by
    intro d
    induction d with
    | zero =>
      intro q e hd hpl
      rw [primLoop.eq_def] at hpl
      split at hpl
      · omega
      · simp at hpl; omega
    | succ m ih =>
      intro q e hd hpl
      rw [primLoop.eq_def] at hpl
      split at hpl
      case isTrue hin =>
        split at hpl
        · simp at hpl; omega
        · split at hpl
          · exact absurd hpl (by simp)
          · have := ih (q + 1) e (by omega) hpl; omega
      case isFalse hin => simp at hpl; omega
  exact main (len - q) q e (by omega) hpl

/-- When the primitive scan is entered on an in-bounds, non-NUL,
non-delimiter character, a successful exit lies strictly beyond the
entry position. -/
theorem primLoop_step (js : List Nat) (len : Nat) (q e : Nat)
    (hin : q < len) (hnz : js.getD q 0 ≠ CHAR_NULL)
    (hnd : isPrimDelim (js.getD q 0) = false)
    (hpl : primLoop js len q = some e) : q + 1 ≤ e := by
  rw [primLoop.eq_def] at hpl
  split at hpl
  case isTrue hin2 =>
    split at hpl
    case isTrue hdel => rw [hnd] at hdel; exact absurd hdel (by simp)
    case isFalse hdel =>
      split at hpl
      · exact absurd hpl (by simp)
      · exact primLoop_ge js len (q + 1) e hpl
  case isFalse hin2 => exact absurd ⟨hin, hnz⟩ hin2

/-- Claim C2: a closing brace or bracket whose kind does not match the
nearest still-open token found by the backward scan through the
allocated tokens, or a closing delimiter arriving when no token is open
at all, makes jsmn_parse with a non-null token array return the Invalid
code -1. -/
theorem claim_C2 (p : JsmnParser) (js : List Nat) (len num_tokens : Nat)
    (ts : List Jsmntok)
    (hin : p.pos < len)
    (hc : js.getD p.pos 0 = CHAR_BRACE_CLOSE ∨
          js.getD p.pos 0 = CHAR_BRACKET_CLOSE)
    (hbad : jsmn_find_open ts p.toknext = none ∨
      ∃ i, jsmn_find_open ts p.toknext = some i ∧
        (if js.getD p.pos 0 = CHAR_BRACE_CLOSE then JsmnType.JSMN_OBJECT
         else JsmnType.JSMN_ARRAY) ≠ (ts.getD i default).type) :
    (jsmn_parse p js len (some ts) num_tokens).1 = JSMN_ERROR_INVAL := by
  simp only [jsmn_parse]
  rw [jsmnLoop.eq_def]
  rcases hbad with hfo | ⟨i, hfo, hmis⟩
  · rcases hc with hc | hc <;>
      (rw [hc]
       simp [hfo, hin, CHAR_BRACE_CLOSE, CHAR_BRACKET_CLOSE,
             CHAR_BRACE_OPEN, CHAR_BRACKET_OPEN, CHAR_QUOTE, CHAR_NULL])
  · rcases hc with hc | hc
    · rw [hc] at hmis
      have hmis2 : JsmnType.JSMN_OBJECT ≠ (ts[i]?.getD default).type := by
        simpa [List.getD_eq_getElem?_getD] using hmis
      rw [hc]
      simp [hfo, hin, hmis2, CHAR_BRACE_CLOSE, CHAR_BRACKET_CLOSE,
            CHAR_BRACE_OPEN, CHAR_BRACKET_OPEN, CHAR_QUOTE, CHAR_NULL]
    · rw [hc] at hmis
      have hmis2 : JsmnType.JSMN_ARRAY ≠ (ts[i]?.getD default).type := by
        simpa [CHAR_BRACKET_CLOSE, CHAR_BRACE_CLOSE,
               List.getD_eq_getElem?_getD] using hmis
      rw [hc]
      simp [hfo, hin, hmis2, CHAR_BRACE_CLOSE, CHAR_BRACKET_CLOSE,
            CHAR_BRACE_OPEN, CHAR_BRACKET_OPEN, CHAR_QUOTE, CHAR_NULL]

/-- Witness for C2: the state reached on the closing bracket of the
input with bytes of the text braceopen quote a quote colon 1
bracketclose (a mismatched closer inside an object), and the fresh
state on the sole byte of the text bracketclose (a closer with nothing
open). -/
theorem claim_C2_witness :
    (jsmn_parse ⟨6, 3, 1⟩ [123, 34, 97, 34, 58, 49, 93] 7
       (some [⟨.JSMN_OBJECT, 0, -1, 1⟩, ⟨.JSMN_STRING, 2, 3, 1⟩,
              ⟨.JSMN_PRIMITIVE, 5, 6, 0⟩]) 8).1 = JSMN_ERROR_INVAL ∧
    (jsmn_parse ⟨0, 0, -1⟩ [93] 1 (some []) 8).1 = JSMN_ERROR_INVAL :=
  ⟨claim_C2 _ _ _ _ _ (by decide) (by decide)
     (Or.inr ⟨0, by decide, by decide⟩),
   claim_C2 _ _ _ _ _ (by decide) (by decide) (Or.inl (by decide))⟩

theorem hexScan_bad (js : List Nat) (len : Nat) :
    ∀ j n q, j < n →
    (∀ k, k < j → q + k < len ∧ js.getD (q + k) 0 ≠ CHAR_NULL ∧
      isHexDigit (js.getD (q + k) 0) = true) →
    q + j < len → js.getD (q + j) 0 ≠ CHAR_NULL →
    isHexDigit (js.getD (q + j) 0) = false →
    hexScan js len n q = none := by
  intro j
  induction j with
  | zero =>
    intro n q hjn hok hlt hnz hbad
    match n, hjn with
    | Nat.succ m, _ =>
      simp only [hexScan]
      rw [if_pos ⟨by omega, by simpa using hnz⟩]
      simp only [Nat.add_zero] at hbad
      rw [if_neg]
      simpa using hbad
  | succ j ih =>
    intro n q hjn hok hlt hnz hbad
    match n, hjn with
    | Nat.succ m, _ =>
      have h0 := hok 0 (by omega)
      simp only [Nat.add_zero] at h0
      simp only [hexScan]
      rw [if_pos ⟨by omega, by simpa using h0.2.1⟩]
      rw [if_pos h0.2.2]
      apply ih m (q + 1) (by omega)
      · intro k hk
        have := hok (k + 1) (by omega)
        constructor
        · omega
        · constructor
          · have h2 := this.2.1
            rw [show q + 1 + k = q + (k + 1) by omega]
            exact h2
          · have h3 := this.2.2
            rw [show q + 1 + k = q + (k + 1) by omega]
            exact h3
      · omega
      · rw [show q + 1 + j = q + (j + 1) by omega]; exact hnz
      · rw [show q + 1 + j = q + (j + 1) by omega]; exact hbad

/-- Claim C3: inside an open string a backslash must be followed by a
canonical escape character or by u with exactly 4 hex digits, else the
scan fails Invalid; running off the buffer (or onto a NUL, the C idiom
for the end of the data) yields Incomplete; and jsmn_parse_string turns
the two scan outcomes into the error codes -1 and -3. -/
theorem claim_C3 :
    (∀ (js : List Nat) (len pos : Nat), pos < len →
      js.getD pos 0 = CHAR_BACKSLASH → pos + 1 < len →
      isEscapeChar (js.getD (pos + 1) 0) = false →
      js.getD (pos + 1) 0 ≠ CHAR_UNICODE →
      strLoop js len pos = .invalid) ∧
    (∀ (js : List Nat) (len pos j : Nat), pos < len →
      js.getD pos 0 = CHAR_BACKSLASH → pos + 1 < len →
      js.getD (pos + 1) 0 = CHAR_UNICODE → j < UNICODE_HEX_DIGITS →
      (∀ k, k < j → pos + 2 + k < len ∧
        js.getD (pos + 2 + k) 0 ≠ CHAR_NULL ∧
        isHexDigit (js.getD (pos + 2 + k) 0) = true) →
      pos + 2 + j < len → js.getD (pos + 2 + j) 0 ≠ CHAR_NULL →
      isHexDigit (js.getD (pos + 2 + j) 0) = false →
      strLoop js len pos = .invalid) ∧
    (∀ (js : List Nat) (len pos : Nat),
      len ≤ pos ∨ js.getD pos 0 = CHAR_NULL →
      strLoop js len pos = .part) ∧
    (∀ (p : JsmnParser) (js : List Nat) (len nt : Nat)
       (tokens : Option (List Jsmntok)),
      strLoop js len (p.pos + 1) = .invalid →
      (jsmn_parse_string p js len tokens nt).1 = JSMN_ERROR_INVAL) ∧
    (∀ (p : JsmnParser) (js : List Nat) (len nt : Nat)
       (tokens : Option (List Jsmntok)),
      strLoop js len (p.pos + 1) = .part →
      (jsmn_parse_string p js len tokens nt).1 = JSMN_ERROR_PART) := by
  refine ⟨?_, ?_, ?_, ?_, ?_⟩
  · intro js len pos hlt hbs hlt2 hesc hu
    rw [strLoop.eq_def]
    rw [dif_pos ⟨hlt, by rw [hbs]; decide⟩]
    rw [if_neg (by rw [hbs]; decide)]
    rw [if_pos hbs]
    rw [dif_pos hlt2]
    rw [if_neg (by rw [hesc]; decide)]
    rw [if_neg hu]
  · intro js len pos j hlt hbs hlt2 hu hj hok hlt3 hnz3 hbad
    have hnone : hexScan js len UNICODE_HEX_DIGITS (pos + 2) = none :=
      hexScan_bad js len j UNICODE_HEX_DIGITS (pos + 2) hj hok hlt3
        hnz3 hbad
    rw [strLoop.eq_def]
    rw [dif_pos ⟨hlt, by rw [hbs]; decide⟩]
    rw [if_neg (by rw [hbs]; decide)]
    rw [if_pos hbs]
    rw [dif_pos hlt2]
    rw [if_neg (by rw [hu]; decide)]
    rw [if_pos hu]
    split
    · rfl
    · rename_i pq hpq
      rw [hnone] at hpq
      exact absurd hpq (by simp)
  · intro js len pos hc
    rw [strLoop.eq_def]
    rw [dif_neg]
    rcases hc with hc | hc
    · omega
    · intro hcon
      exact absurd hc hcon.2
  · intro p js len nt tokens hsl
    simp only [jsmn_parse_string, hsl]
  · intro p js len nt tokens hsl
    simp only [jsmn_parse_string, hsl]

/-- Witness for C3: backslash x inside a string is Invalid, backslash
u12g is Invalid at the third hex position, a scan entered past the end
is Incomplete, and the two jsmn_parse_string liftings at the inputs
quote a b (unterminated, Incomplete) and quote backslash x quote
(Invalid). -/
theorem claim_C3_witness :
    strLoop [34, 92, 120, 34] 4 1 = .invalid ∧
    strLoop [34, 92, 117, 49, 50, 103, 34] 7 1 = .invalid ∧
    strLoop [34, 97, 98] 3 3 = .part ∧
    (jsmn_parse_string ⟨0, 0, -1⟩ [34, 97, 98] 3 (some []) 4).1 =
      JSMN_ERROR_PART ∧
    (jsmn_parse_string ⟨0, 0, -1⟩ [34, 92, 120, 34] 4 (some []) 4).1 =
      JSMN_ERROR_INVAL := by
  have hA : strLoop [34, 92, 120, 34] 4 1 = .invalid :=
    claim_C3.1 _ _ _ (by decide) (by decide) (by decide) (by decide)
      (by decide)
  have hpart : strLoop [34, 97, 98] 3 1 = .part := by
    simp [strLoop, CHAR_QUOTE, CHAR_BACKSLASH, CHAR_NULL, isEscapeChar,
          CHAR_UNICODE, CHAR_FORWARD_SLASH, CHAR_BACKSPACE, CHAR_FORM_FEED,
          CHAR_CARRIAGE_RET, CHAR_NEWLINE, CHAR_TAB, hexScan, isHexDigit]
  refine ⟨hA, ?_, ?_, ?_, ?_⟩
  · exact claim_C3.2.1 _ _ _ 2 (by decide) (by decide) (by decide)
      (by decide) (by decide) (by decide) (by decide) (by decide)
      (by decide)
  · exact claim_C3.2.2.1 _ _ _ (by decide)
  · exact claim_C3.2.2.2.2 ⟨0, 0, -1⟩ _ _ _ _ hpart
  · exact claim_C3.2.2.2.1 ⟨0, 0, -1⟩ _ _ _ _ hA

/-- Claim C10 (implicit): in counting mode (NULL token array) no
bracket matching happens at all: a closing brace or bracket is skipped
by one whole loop iteration that changes nothing but the cursor (in
particular the count is unchanged, so closers contribute nothing), and
the end-of-scan unset-end check is skipped, the loop count being
returned as is; concretely, the delimiter-defect inputs with the bytes
of braceopen quote a quote colon 1 bracketclose, of bracketclose alone,
and of braceopen alone count 3, 0 and 1 tokens instead of failing. -/
theorem claim_C10 :
    (∀ (js : List Nat) (len num_tokens : Nat) (p : JsmnParser)
       (count : Int),
      p.pos < len →
      (js.getD p.pos 0 = CHAR_BRACE_CLOSE ∨
       js.getD p.pos 0 = CHAR_BRACKET_CLOSE) →
      jsmnLoop js len num_tokens p none count =
        jsmnLoop js len num_tokens { p with pos := p.pos + 1 } none
          count) ∧
    (∀ (p : JsmnParser) (js : List Nat) (len num_tokens : Nat)
       (c : Int) (p2 : JsmnParser) (o : Option (List Jsmntok)),
      jsmnLoop js len num_tokens p none ((p.toknext : Int)) =
        .done c p2 o →
      (jsmn_parse p js len none num_tokens).1 = c) ∧
    (jsmn_parse jsmn_init [123, 34, 97, 34, 58, 49, 93] 7 none 0).1 =
      3 ∧
    (jsmn_parse jsmn_init [93] 1 none 0).1 = 0 ∧
    (jsmn_parse jsmn_init [123] 1 none 0).1 = 1 := by
  refine ⟨?_, ?_, ?_, ?_, ?_⟩
  · intro js len num_tokens p count hlt hc
    conv_lhs => rw [jsmnLoop.eq_def]
    have hnz : js.getD p.pos 0 ≠ CHAR_NULL := by
      rcases hc with hc | hc <;> (rw [hc]; decide)
    rw [dif_pos ⟨hlt, hnz⟩]
    rw [dif_neg (by rcases hc with hc | hc <;> (rw [hc]; decide))]
    rw [dif_pos hc]
  · intro p js len num_tokens c p2 o hdone
    simp only [jsmn_parse, hdone]
  · simp [jsmn_parse, jsmnLoop, jsmn_parse_string, jsmn_parse_primitive,
        strLoop, primLoop, hexScan, jsmn_init, sizeIncr, jsmn_find_open,
        findOpenDown, jsmn_find_open_container, findOpenContainerDown,
        jsmn_super_size_incr, jsmn_child_size_incr, jsmn_close_super,
        jsmn_comma_super,
        isOpenTok, isPrimDelim, isEscapeChar, isHexDigit,
        CHAR_QUOTE, CHAR_BACKSLASH, CHAR_UNICODE, CHAR_BRACE_OPEN,
        CHAR_BRACE_CLOSE, CHAR_BRACKET_OPEN, CHAR_BRACKET_CLOSE,
        CHAR_COLON, CHAR_COMMA, CHAR_SPACE, CHAR_NULL, CHAR_LF, CHAR_CR,
        CHAR_HTAB, ASCII_PRINTABLE_MIN, ASCII_PRINTABLE_MAX,
        JSMN_ERROR_INVAL, JSMN_ERROR_NOMEM, JSMN_ERROR_PART]
  · simp [jsmn_parse, jsmnLoop, jsmn_parse_string, jsmn_parse_primitive,
        strLoop, primLoop, hexScan, jsmn_init, sizeIncr, jsmn_find_open,
        findOpenDown, jsmn_find_open_container, findOpenContainerDown,
        jsmn_super_size_incr, jsmn_child_size_incr, jsmn_close_super,
        jsmn_comma_super,
        isOpenTok, isPrimDelim, isEscapeChar, isHexDigit,
        CHAR_QUOTE, CHAR_BACKSLASH, CHAR_UNICODE, CHAR_BRACE_OPEN,
        CHAR_BRACE_CLOSE, CHAR_BRACKET_OPEN, CHAR_BRACKET_CLOSE,
        CHAR_COLON, CHAR_COMMA, CHAR_SPACE, CHAR_NULL, CHAR_LF, CHAR_CR,
        CHAR_HTAB, ASCII_PRINTABLE_MIN, ASCII_PRINTABLE_MAX,
        JSMN_ERROR_INVAL, JSMN_ERROR_NOMEM, JSMN_ERROR_PART]
  · simp [jsmn_parse, jsmnLoop, jsmn_parse_string, jsmn_parse_primitive,
        strLoop, primLoop, hexScan, jsmn_init, sizeIncr, jsmn_find_open,
        findOpenDown, jsmn_find_open_container, findOpenContainerDown,
        jsmn_super_size_incr, jsmn_child_size_incr, jsmn_close_super,
        jsmn_comma_super,
        isOpenTok, isPrimDelim, isEscapeChar, isHexDigit,
        CHAR_QUOTE, CHAR_BACKSLASH, CHAR_UNICODE, CHAR_BRACE_OPEN,
        CHAR_BRACE_CLOSE, CHAR_BRACKET_OPEN, CHAR_BRACKET_CLOSE,
        CHAR_COLON, CHAR_COMMA, CHAR_SPACE, CHAR_NULL, CHAR_LF, CHAR_CR,
        CHAR_HTAB, ASCII_PRINTABLE_MIN, ASCII_PRINTABLE_MAX,
        JSMN_ERROR_INVAL, JSMN_ERROR_NOMEM, JSMN_ERROR_PART]

/-- Witness for C10: the skip equation applied on the closing bracket
of the two-byte input braceopen bracketclose in counting mode, and the
end-check-skip applied to the completed counting scan of the single
byte bracketclose. -/
theorem claim_C10_witness :
    jsmnLoop [123, 93] 2 4 ⟨1, 1, 0⟩ none 1 =
      jsmnLoop [123, 93] 2 4 ⟨2, 1, 0⟩ none 1 ∧
    (jsmn_parse ⟨0, 0, -1⟩ [93] 1 none 0).1 = 0 := by
  constructor
  · exact claim_C10.1 _ _ _ ⟨1, 1, 0⟩ _ (by decide) (Or.inr (by decide))
  · refine claim_C10.2.1 ⟨0, 0, -1⟩ _ _ _ 0 ⟨1, 0, -1⟩ none ?_
    simp [jsmnLoop, jsmn_init, CHAR_QUOTE, CHAR_BACKSLASH, CHAR_UNICODE,
          CHAR_BRACE_OPEN, CHAR_BRACE_CLOSE, CHAR_BRACKET_OPEN,
          CHAR_BRACKET_CLOSE, CHAR_COLON, CHAR_COMMA, CHAR_SPACE,
          CHAR_NULL, CHAR_LF, CHAR_CR, CHAR_HTAB]

/-- Counterexample to claim C1 as stated: the input consisting of the
single byte bracketclose has unbalanced brackets, the parser is freshly
initialised and the non-null token array easily suffices, yet
jsmn_parse returns Invalid (-1), not the Incomplete code -3 the claim
demands for every form of bracket imbalance. -/
theorem claim_C1_counterexample :
    (jsmn_parse jsmn_init [93] 1 (some []) 4).1 = JSMN_ERROR_INVAL ∧
    JSMN_ERROR_INVAL ≠ JSMN_ERROR_PART := by
  constructor
  · simp [jsmn_parse, jsmnLoop, jsmn_init, jsmn_find_open, exitTokens,
          CHAR_QUOTE, CHAR_BACKSLASH, CHAR_UNICODE, CHAR_BRACE_OPEN,
          CHAR_BRACE_CLOSE, CHAR_BRACKET_OPEN, CHAR_BRACKET_CLOSE,
          CHAR_COLON, CHAR_COMMA, CHAR_SPACE, CHAR_NULL, CHAR_LF,
          CHAR_CR, CHAR_HTAB]
  · decide

/-- Claim C1 (amended): when the scan loop finishes and some allocated
token still has its end unset (the surplus-opener imbalances),
jsmn_parse with a non-null token array fails with Incomplete (-3); in
particular the input with the bytes of braceopen quote user quote colon
space quote johndoe quote (missing closing brace) returns Incomplete.
A closing delimiter with no matching opener instead returns Invalid
(see the counterexample). -/
theorem claim_C1 :
    (∀ (p : JsmnParser) (js : List Nat) (len num_tokens : Nat)
       (ts0 : List Jsmntok) (c : Int) (p2 : JsmnParser)
       (ts2 : List Jsmntok),
      jsmnLoop js len num_tokens p (some ts0) ((p.toknext : Int)) =
        .done c p2 (some ts2) →
      (∃ t ∈ ts2, t.start ≠ -1 ∧ t.«end» = -1) →
      (jsmn_parse p js len (some ts0) num_tokens).1 =
        JSMN_ERROR_PART) ∧
    (jsmn_parse jsmn_init
      [123, 34, 117, 115, 101, 114, 34, 58, 32,
       34, 106, 111, 104, 110, 100, 111, 101, 34] 18 (some []) 8).1 =
      JSMN_ERROR_PART := by
  constructor
  · intro p js len num_tokens ts0 c p2 ts2 hdone hopen
    simp only [jsmn_parse, hdone]
    rw [if_pos]
    simp only [List.any_eq_true, isOpenTok]
    obtain ⟨t, ht, h1, h2⟩ := hopen
    refine ⟨t, ht, ?_⟩
    simp [h1, h2]
  · simp [jsmn_parse, jsmnLoop, jsmn_parse_string, jsmn_parse_primitive,
        strLoop, primLoop, hexScan, jsmn_init, sizeIncr, jsmn_find_open,
        findOpenDown, jsmn_find_open_container, findOpenContainerDown,
        jsmn_super_size_incr, jsmn_child_size_incr, jsmn_close_super,
        jsmn_comma_super,
        isOpenTok, isPrimDelim, isEscapeChar, isHexDigit,
        CHAR_QUOTE, CHAR_BACKSLASH, CHAR_UNICODE, CHAR_BRACE_OPEN,
        CHAR_BRACE_CLOSE, CHAR_BRACKET_OPEN, CHAR_BRACKET_CLOSE,
        CHAR_COLON, CHAR_COMMA, CHAR_SPACE, CHAR_NULL, CHAR_LF, CHAR_CR,
        CHAR_HTAB, ASCII_PRINTABLE_MIN, ASCII_PRINTABLE_MAX,
        JSMN_ERROR_INVAL, JSMN_ERROR_NOMEM, JSMN_ERROR_PART]

/-- Witness for C1: the single byte braceopen completes the scan with
the object token still open, so the call returns Incomplete. -/
theorem claim_C1_witness :
    (jsmn_parse jsmn_init [123] 1 (some []) 4).1 = JSMN_ERROR_PART := by
  refine claim_C1.1 jsmn_init _ _ _ [] 1 ⟨1, 1, 0⟩
    [{ type := .JSMN_OBJECT, start := 0, «end» := -1, size := 0 }] ?_ ?_
  · simp [jsmnLoop, jsmn_init, sizeIncr, jsmn_super_size_incr,
          jsmn_child_size_incr, jsmn_close_super, jsmn_comma_super,
          CHAR_QUOTE, CHAR_BACKSLASH, CHAR_UNICODE, CHAR_BRACE_OPEN,
          CHAR_BRACE_CLOSE, CHAR_BRACKET_OPEN, CHAR_BRACKET_CLOSE,
          CHAR_COLON, CHAR_COMMA, CHAR_SPACE, CHAR_NULL, CHAR_LF,
          CHAR_CR, CHAR_HTAB]
  · exact ⟨_, List.mem_singleton_self _, by decide, by decide⟩

/-- Claim C4: uart_transmit_buffer returns -1 on a NULL input leaving
the driver untouched, -2 when the transmitter is not Idle leaving TX
state and context unchanged, and otherwise moves TX state from Idle to
Busy, arms the TX context, enables the TXE interrupt and returns 0
without writing any byte to the data register (the TDR log is
unchanged); consequently a second send issued before the ISR has
finished the first is rejected with Busy. -/
theorem claim_C4 :
    (∀ s : UartDriver, uart_transmit_buffer none s = (-1, s)) ∧
    (∀ (s : UartDriver) (str : List Nat),
      s.g_tx_state ≠ .UART_STATE_IDLE →
      uart_transmit_buffer (some str) s = (-2, s)) ∧
    (∀ (s : UartDriver) (str : List Nat),
      s.g_tx_state = .UART_STATE_IDLE →
      uart_transmit_buffer (some str) s =
        (0, { s with g_tx_state := .UART_STATE_TX_BUSY,
                     g_p_tx_buffer := some str,
                     g_tx_length := str.length,
                     g_tx_index := 0,
                     cr1_txeie := true }) ∧
      (uart_transmit_buffer (some str) s).2.tdr_log = s.tdr_log) ∧
    (∀ (s : UartDriver) (str1 str2 : List Nat),
      s.g_tx_state = .UART_STATE_IDLE →
      (uart_transmit_buffer (some str2)
        (uart_transmit_buffer (some str1) s).2).1 = -2) := by
  refine ⟨fun s => rfl, ?_, ?_, ?_⟩
  · intro s str h
    simp [uart_transmit_buffer, h]
  · intro s str h
    simp [uart_transmit_buffer, h]
  · intro s str1 str2 h
    simp [uart_transmit_buffer, h]

/-- Witness for C4: send of the bytes AB from the reset state succeeds,
and an immediate second send of C is rejected with -2. -/
theorem claim_C4_witness :
    (uart_transmit_buffer (some [65, 66])
      uart_reset_state).1 = 0 ∧
    (uart_transmit_buffer (some [67])
      (uart_transmit_buffer (some [65, 66]) uart_reset_state).2).1 =
      -2 := by
  constructor
  · have := (claim_C4.2.2.1 uart_reset_state [65, 66] rfl).1
    rw [this]
  · exact claim_C4.2.2.2 uart_reset_state [65, 66] [67] rfl

/-- The TX branch of the interrupt handler touches no RX-side field and
neither the error kind nor the error-clear log. -/
theorem uart_isr_tx_rx_fields (f : UsartIsr) (s : UartDriver) :
    (uart_isr_tx f s).g_rx_state = s.g_rx_state ∧
    (uart_isr_tx f s).g_rx_index = s.g_rx_index ∧
    (uart_isr_tx f s).g_rx_buffer = s.g_rx_buffer ∧
    (uart_isr_tx f s).cr1_rxneie = s.cr1_rxneie ∧
    (uart_isr_tx f s).g_error = s.g_error ∧
    (uart_isr_tx f s).icr_log = s.icr_log := by
  unfold uart_isr_tx
  split
  · split
    · split <;> simp
    · simp
  · simp

/-- Claim C5: in the RX branch (receiver Busy, RXNE up), any hardware
error flag makes the handler disable RXNEIE, set RX state to Error,
record the error kind with the priority overrun, framing, parity,
noise (first match wins), and write the matching clear bit to USART_ICR;
no byte is stored (receive buffer and write index unchanged). -/
theorem claim_C5 (f : UsartIsr) (rdr : Nat) (s : UartDriver)
    (hrx : s.g_rx_state = .UART_STATE_RX_BUSY)
    (hne : f.rxne = true)
    (herr : (f.ore || f.fe || f.nf || f.pe) = true) :
    (USART2_IRQHandler f rdr s).cr1_rxneie = false ∧
    (USART2_IRQHandler f rdr s).g_rx_state = .UART_STATE_ERROR ∧
    (USART2_IRQHandler f rdr s).g_error =
      (if f.ore then .UART_ERROR_OVERRUN
       else if f.fe then .UART_ERROR_FRAMING
       else if f.pe then .UART_ERROR_PARITY
       else .UART_ERROR_NOISE) ∧
    (USART2_IRQHandler f rdr s).g_rx_buffer = s.g_rx_buffer ∧
    (USART2_IRQHandler f rdr s).g_rx_index = s.g_rx_index ∧
    (USART2_IRQHandler f rdr s).icr_log = s.icr_log ++
      [if f.ore then USART_ISR_ORE_BIT
       else if f.fe then USART_ISR_FE_BIT
       else if f.pe then USART_ISR_PE_BIT
       else USART_ISR_NF_BIT] := by
  obtain ⟨h1, h2, h3, h4, h5, h6⟩ := uart_isr_tx_rx_fields f s
  simp only [USART2_IRQHandler, uart_isr_rx]
  rw [if_pos ⟨hne, by rw [h1, hrx]⟩]
  rw [if_neg (by simp [herr])]
  by_cases hore : f.ore = true
  · simp [hore, h1, h2, h3, h4, h5, h6]
  · by_cases hfe : f.fe = true
    · simp [hore, hfe, h1, h2, h3, h4, h5, h6]
    · by_cases hpe : f.pe = true
      · simp [hore, hfe, hpe, h1, h2, h3, h4, h5, h6]
      · by_cases hnf : f.nf = true
        · simp [hore, hfe, hpe, hnf, h1, h2, h3, h4, h5, h6]
        · simp [hore, hfe, hpe, hnf] at herr

/-- Witness for C5: an overrun flag during an armed receive puts the
driver in Error(Overrun). -/
theorem claim_C5_witness :
    (USART2_IRQHandler ⟨false, true, true, false, false, false⟩ 65
      (uart_receive_buffer uart_reset_state).2).g_rx_state =
        .UART_STATE_ERROR ∧
    (USART2_IRQHandler ⟨false, true, true, false, false, false⟩ 65
      (uart_receive_buffer uart_reset_state).2).g_error =
        .UART_ERROR_OVERRUN := by
  have h := claim_C5 ⟨false, true, true, false, false, false⟩ 65
    (uart_receive_buffer uart_reset_state).2 (by decide) rfl rfl
  exact ⟨h.2.1, by rw [h.2.2.1]; decide⟩

/-- Claim C6: uart_error_reset in the Error state clears the error kind
to None, zeroes the write index, re-enables RXNEIE and returns RX state
to Busy; and concretely, after an overrun error during an active
receive, reset returns the driver to Busy with write index 0. -/
theorem claim_C6 :
    (∀ s : UartDriver, s.g_rx_state = .UART_STATE_ERROR →
      uart_error_reset s =
        { s with g_rx_state := .UART_STATE_RX_BUSY,
                 g_error := .UART_ERROR_NONE,
                 g_rx_index := 0,
                 cr1_rxneie := true }) ∧
    ((USART2_IRQHandler ⟨false, true, true, false, false, false⟩ 65
        (uart_receive_buffer uart_reset_state).2).g_rx_state =
      .UART_STATE_ERROR ∧
     (USART2_IRQHandler ⟨false, true, true, false, false, false⟩ 65
        (uart_receive_buffer uart_reset_state).2).g_error =
      .UART_ERROR_OVERRUN ∧
     (uart_error_reset
        (USART2_IRQHandler ⟨false, true, true, false, false, false⟩ 65
          (uart_receive_buffer uart_reset_state).2)).g_rx_state =
      .UART_STATE_RX_BUSY ∧
     (uart_error_reset
        (USART2_IRQHandler ⟨false, true, true, false, false, false⟩ 65
          (uart_receive_buffer uart_reset_state).2)).g_rx_index = 0 ∧
     (uart_error_reset
        (USART2_IRQHandler ⟨false, true, true, false, false, false⟩ 65
          (uart_receive_buffer uart_reset_state).2)).g_error =
      .UART_ERROR_NONE ∧
     (uart_error_reset
        (USART2_IRQHandler ⟨false, true, true, false, false, false⟩ 65
          (uart_receive_buffer uart_reset_state).2)).cr1_rxneie =
      true) := by
  constructor
  · intro s h
    simp [uart_error_reset, h]
  · decide

/-- Witness for C6: reset applied to an Error(Overrun) state with a
nonzero write index. -/
theorem claim_C6_witness :
    uart_error_reset
      { uart_reset_state with g_rx_state := .UART_STATE_ERROR,
                              g_error := .UART_ERROR_OVERRUN,
                              g_rx_index := 5 } =
    { uart_reset_state with g_rx_state := .UART_STATE_RX_BUSY,
                            g_error := .UART_ERROR_NONE,
                            g_rx_index := 0,
                            cr1_rxneie := true } := by
  have := claim_C6.1
    { uart_reset_state with g_rx_state := .UART_STATE_ERROR,
                            g_error := .UART_ERROR_OVERRUN,
                            g_rx_index := 5 } rfl
  rw [this]

/-- Claim C7: in the error-free RX path the received byte is stored at
the write index only when capacity remains (one byte being reserved for
the terminator); a stored LF or CR additionally appends a NUL
terminator, sets RX state to Idle and disables RXNEIE, while any other
byte leaves the receiver Busy; with no capacity left nothing is stored
and the receiver goes Idle with RXNEIE disabled. -/
theorem claim_C7 (f : UsartIsr) (rdr : Nat) (s : UartDriver)
    (hrx : s.g_rx_state = .UART_STATE_RX_BUSY)
    (hne : f.rxne = true)
    (herr : (f.ore || f.fe || f.nf || f.pe) = false) :
    (s.g_rx_index < RX_BUFFER_SIZE_BYTES - 1 →
      s.g_rx_buffer.length = RX_BUFFER_SIZE_BYTES →
      ((rdr = 10 ∨ rdr = 13) →
        (USART2_IRQHandler f rdr s).g_rx_buffer =
          (s.g_rx_buffer.set s.g_rx_index rdr).set
            (s.g_rx_index + 1) 0 ∧
        (USART2_IRQHandler f rdr s).g_rx_index = s.g_rx_index + 1 ∧
        (USART2_IRQHandler f rdr s).g_rx_state = .UART_STATE_IDLE ∧
        (USART2_IRQHandler f rdr s).cr1_rxneie = false) ∧
      (¬(rdr = 10 ∨ rdr = 13) →
        (USART2_IRQHandler f rdr s).g_rx_buffer =
          s.g_rx_buffer.set s.g_rx_index rdr ∧
        (USART2_IRQHandler f rdr s).g_rx_index = s.g_rx_index + 1 ∧
        (USART2_IRQHandler f rdr s).g_rx_state =
          .UART_STATE_RX_BUSY ∧
        (USART2_IRQHandler f rdr s).cr1_rxneie = s.cr1_rxneie)) ∧
    (RX_BUFFER_SIZE_BYTES - 1 ≤ s.g_rx_index →
      (USART2_IRQHandler f rdr s).g_rx_buffer = s.g_rx_buffer ∧
      (USART2_IRQHandler f rdr s).g_rx_index = s.g_rx_index ∧
      (USART2_IRQHandler f rdr s).g_rx_state = .UART_STATE_IDLE ∧
      (USART2_IRQHandler f rdr s).cr1_rxneie = false) := by
  obtain ⟨h1, h2, h3, h4, h5, h6⟩ := uart_isr_tx_rx_fields f s
  simp only [USART2_IRQHandler, uart_isr_rx]
  rw [if_pos ⟨hne, by rw [h1, hrx]⟩]
  rw [if_pos (by simp [herr])]
  constructor
  · intro hcap hlen
    rw [if_pos]
    case hc => rw [h2]; exact hcap
    constructor
    · intro hterm
      have hget : ((uart_isr_tx f s).g_rx_buffer.set
          (uart_isr_tx f s).g_rx_index rdr).getD
          (uart_isr_tx f s).g_rx_index 0 = rdr := by
        rw [List.getD_eq_getElem?_getD,
            List.getElem?_set_eq_of_lt rdr
              (by
                rw [h2, h3, hlen]
                have hR : RX_BUFFER_SIZE_BYTES = 100 := rfl
                omega)]
        rfl
      rw [if_pos]
      case hc =>
        refine ⟨by omega, ?_⟩
        simp only [Nat.add_sub_cancel, hget]
        rcases hterm with ht | ht <;> simp [ht]
      simp [h2, h3, h4]
    · intro hterm
      rw [if_neg]
      case hnc =>
        rintro ⟨-, hterm2⟩
        have hget : ((uart_isr_tx f s).g_rx_buffer.set
            (uart_isr_tx f s).g_rx_index rdr).getD
            (uart_isr_tx f s).g_rx_index 0 = rdr := by
          rw [List.getD_eq_getElem?_getD,
              List.getElem?_set_eq_of_lt rdr
                (by
                  rw [h2, h3, hlen]
                  have hR : RX_BUFFER_SIZE_BYTES = 100 := rfl
                  omega)]
          rfl
        simp only [Nat.add_sub_cancel, hget] at hterm2
        exact hterm hterm2
      simp [h1, h2, h3, h4, hrx]
  · intro hcap
    rw [if_neg]
    case hnc => rw [h2]; omega
    simp [h2, h3, h4]

/-- Witness for C7: feeding the bytes X then LF one interrupt at a time
into a freshly armed receiver leaves the buffer starting with X LF NUL
and the receiver Idle; the non-terminator step is the claim applied at
the byte X. -/
theorem claim_C7_witness :
    ((USART2_IRQHandler ⟨false, true, false, false, false, false⟩ 10
      (USART2_IRQHandler ⟨false, true, false, false, false, false⟩ 88
        (uart_receive_buffer uart_reset_state).2)).g_rx_buffer.take 3 =
      [88, 10, 0] ∧
     (USART2_IRQHandler ⟨false, true, false, false, false, false⟩ 10
      (USART2_IRQHandler ⟨false, true, false, false, false, false⟩ 88
        (uart_receive_buffer uart_reset_state).2)).g_rx_state =
      .UART_STATE_IDLE) ∧
    (USART2_IRQHandler ⟨false, true, false, false, false, false⟩ 88
        (uart_receive_buffer uart_reset_state).2).g_rx_buffer =
      ((uart_receive_buffer uart_reset_state).2.g_rx_buffer.set 0 88) := by
  constructor
  · decide
  · have h := claim_C7 ⟨false, true, false, false, false, false⟩ 88
      (uart_receive_buffer uart_reset_state).2 (by decide) rfl rfl
    have h2 := (h.1 (by decide) (by decide)).2 (by decide)
    exact h2.1

theorem tokInv_mono (js : List Nat) (pos pos2 : Nat) (t : Jsmntok)
    (h : TokInv js pos t) (hle : pos ≤ pos2) : TokInv js pos2 t := by
  obtain ⟨hb, hs⟩ := h
  exact ⟨hb, by omega⟩

theorem mem_sizeIncr (ts : List Jsmntok) (i : Nat) :
    ∀ t ∈ sizeIncr ts i, ∃ t0 ∈ ts,
      t.type = t0.type ∧ t.start = t0.start ∧ t.«end» = t0.«end» := by
  intro t ht
  unfold sizeIncr at ht
  split at ht
  case _ t0 hget =>
    rcases List.mem_or_eq_of_mem_set ht with h | h
    · exact ⟨t, h, rfl, rfl, rfl⟩
    · exact ⟨t0, List.get?_mem hget, by rw [h], by rw [h], by rw [h]⟩
  case _ => exact ⟨t, ht, rfl, rfl, rfl⟩

theorem mem_super_size_incr (ts : List Jsmntok) (toksuper : Int) :
    ∀ t ∈ jsmn_super_size_incr ts toksuper, ∃ t0 ∈ ts,
      t.type = t0.type ∧ t.start = t0.start ∧ t.«end» = t0.«end» := by
  intro t ht
  unfold jsmn_super_size_incr at ht
  split at ht
  · exact mem_sizeIncr ts toksuper.toNat t ht
  · exact ⟨t, ht, rfl, rfl, rfl⟩

theorem tokInv_congr (js : List Nat) (pos : Nat) (t t0 : Jsmntok)
    (e1 : t.type = t0.type) (e2 : t.start = t0.start)
    (e3 : t.«end» = t0.«end») (h : TokInv js pos t0) :
    TokInv js pos t := by
  unfold TokInv TokBase at h ⊢
  rw [e1, e2, e3]
  exact h

theorem child_size_incr_some (L : List Jsmntok) (s : Int) :
    jsmn_child_size_incr (some L) s = some (jsmn_super_size_incr L s) := by
  unfold jsmn_child_size_incr jsmn_super_size_incr
  split <;> rfl

theorem findOpenDown_sound (ts : List Jsmntok) :
    ∀ i j, findOpenDown ts i = some j →
      isOpenTok (ts.getD j default) = true := by
  intro i
  induction i with
  | zero =>
    intro j h
    unfold findOpenDown at h
    split at h
    · simp at h; rw [← h]; assumption
    · simp at h
  | succ n ih =>
    intro j h
    unfold findOpenDown at h
    split at h
    · simp at h; rw [← h]; assumption
    · exact ih j h

theorem jsmn_find_open_sound (ts : List Jsmntok) (tn i : Nat)
    (h : jsmn_find_open ts tn = some i) :
    isOpenTok (ts.getD i default) = true ∧ i < ts.length := by
  have hop : isOpenTok (ts.getD i default) = true := by
    unfold jsmn_find_open at h
    split at h
    · simp at h
    · exact findOpenDown_sound ts _ i h
  refine ⟨hop, ?_⟩
  by_contra hge
  rw [List.getD_eq_default ts default (by omega)] at hop
  simp [isOpenTok] at hop
  exact hop.1 rfl

set_option maxHeartbeats 1000000 in
theorem jsmnLoop_inv_prim (js : List Nat) (len num_tokens m : Nat)
    (ih : ∀ (p : JsmnParser) (ts : List Jsmntok) (count : Int),
      len - p.pos ≤ m →
      (∀ t ∈ ts, TokInv js p.pos t) →
      (∀ (r : Int) (p2 : JsmnParser) (o : Option (List Jsmntok)),
        jsmnLoop js len num_tokens p (some ts) count = .err r p2 o →
        r < 0 ∧ ∀ ts2, o = some ts2 → ∀ t ∈ ts2, TokBase js t) ∧
      (∀ (c : Int) (p2 : JsmnParser) (o : Option (List Jsmntok)),
        jsmnLoop js len num_tokens p (some ts) count = .done c p2 o →
        ∀ ts2, o = some ts2 → ∀ t ∈ ts2, TokBase js t))
    (p : JsmnParser) (ts : List Jsmntok) (count : Int)
    (hd : len - p.pos ≤ m + 1)
    (hinv : ∀ t ∈ ts, TokInv js p.pos t)
    (hin : p.pos < len ∧ js.getD p.pos 0 ≠ CHAR_NULL)
    (hnd : isPrimDelim (js.getD p.pos 0) = false) :
    (∀ (r : Int) (p2 : JsmnParser) (o : Option (List Jsmntok)),
      (if hr : (jsmn_parse_primitive p js len (some ts) num_tokens).1 < 0 then
        LoopExit.err
          (jsmn_parse_primitive p js len (some ts) num_tokens).1
          (jsmn_parse_primitive p js len (some ts) num_tokens).2.1
          (jsmn_parse_primitive p js len (some ts) num_tokens).2.2
      else
        jsmnLoop js len num_tokens
          { (jsmn_parse_primitive p js len (some ts) num_tokens).2.1 with
            pos :=
              (jsmn_parse_primitive p js len (some ts)
                 num_tokens).2.1.pos + 1 }
          (jsmn_child_size_incr
            (jsmn_parse_primitive p js len (some ts) num_tokens).2.2
            (jsmn_parse_primitive p js len (some ts)
               num_tokens).2.1.toksuper)
          (count + 1)) = .err r p2 o →
      r < 0 ∧ ∀ ts2, o = some ts2 → ∀ t ∈ ts2, TokBase js t) ∧
    (∀ (c : Int) (p2 : JsmnParser) (o : Option (List Jsmntok)),
      (if hr : (jsmn_parse_primitive p js len (some ts) num_tokens).1 < 0 then
        LoopExit.err
          (jsmn_parse_primitive p js len (some ts) num_tokens).1
          (jsmn_parse_primitive p js len (some ts) num_tokens).2.1
          (jsmn_parse_primitive p js len (some ts) num_tokens).2.2
      else
        jsmnLoop js len num_tokens
          { (jsmn_parse_primitive p js len (some ts) num_tokens).2.1 with
            pos :=
              (jsmn_parse_primitive p js len (some ts)
                 num_tokens).2.1.pos + 1 }
          (jsmn_child_size_incr
            (jsmn_parse_primitive p js len (some ts) num_tokens).2.2
            (jsmn_parse_primitive p js len (some ts)
               num_tokens).2.1.toksuper)
          (count + 1)) = .done c p2 o →
      ∀ ts2, o = some ts2 → ∀ t ∈ ts2, TokBase js t) := by
  rcases hpl : primLoop js len p.pos with _ | epos
  · have hps : jsmn_parse_primitive p js len (some ts)
        num_tokens =
        (JSMN_ERROR_INVAL, { p with pos := p.pos },
         some ts) := by
      simp only [jsmn_parse_primitive, hpl]
    rw [hps]
    dsimp only
    rw [dif_pos
      (by decide : (JSMN_ERROR_INVAL : Int) < 0)]
    constructor
    · intro r p2 o heq
      rw [LoopExit.err.injEq] at heq
      obtain ⟨h1, h2, h3⟩ := heq
      refine ⟨by rw [← h1]; decide, ?_⟩
      intro ts2 ho t ht
      rw [← h3] at ho
      injection ho with ho2
      subst ho2
      exact (hinv t ht).1
    · intro c p2 o heq
      exact absurd heq (by simp)
  · have hstep : p.pos + 1 ≤ epos :=
      primLoop_step js len p.pos epos hin.1 hin.2
        hnd hpl
    by_cases hcap : p.toknext < num_tokens
    · have hps : jsmn_parse_primitive p js len
          (some ts) num_tokens =
          (0, { p with
                pos := epos - 1
                toknext := p.toknext + 1 },
           some (ts ++
             [{ type := JsmnType.JSMN_PRIMITIVE,
                start := (p.pos : Int),
                «end» := (epos : Int),
                size := 0 }])) := by
        simp only [jsmn_parse_primitive, hpl]
        rw [if_pos hcap]
      rw [hps]
      dsimp only
      rw [dif_neg (by decide : ¬((0 : Int) < 0))]
      rw [child_size_incr_some]
      clear hps hpl hnd
      have hfuel : len - (epos - 1 + 1) ≤ m := by
        clear ih hinv
        omega
      have hinv2 : ∀ t ∈ jsmn_super_size_incr
          (ts ++ [{ type := JsmnType.JSMN_PRIMITIVE,
                    start := (p.pos : Int),
                    «end» := (epos : Int),
                    size := 0 }]) p.toksuper,
          TokInv js (epos - 1 + 1) t := by
        intro t ht
        obtain ⟨t0, ht0, he1, he2, he3⟩ :=
          mem_super_size_incr _ _ t ht
        rcases List.mem_append.1 ht0 with hA | hB
        · exact tokInv_congr js (epos - 1 + 1) t t0
            he1 he2 he3
            (tokInv_mono js p.pos (epos - 1 + 1) t0
              (hinv t0 hA) (by omega))
        · rw [List.mem_singleton] at hB
          subst hB
          refine tokInv_congr js (epos - 1 + 1) t _
            he1 he2 he3 ?_
          refine ⟨⟨?_, ?_, ?_⟩, ?_⟩ <;> dsimp only
          · omega
          · exact Or.inr (by omega)
          · intro hstr
            exact absurd hstr (by decide)
          · omega
      exact ih _ _ _ hfuel hinv2
    · have hps : jsmn_parse_primitive p js len
          (some ts) num_tokens =
          (JSMN_ERROR_NOMEM, { p with pos := p.pos },
           some ts) := by
        simp only [jsmn_parse_primitive, hpl]
        rw [if_neg hcap]
      rw [hps]
      dsimp only
      rw [dif_pos
        (by decide : (JSMN_ERROR_NOMEM : Int) < 0)]
      constructor
      · intro r p2 o heq
        rw [LoopExit.err.injEq] at heq
        obtain ⟨h1, h2, h3⟩ := heq
        refine ⟨by rw [← h1]; decide, ?_⟩
        intro ts2 ho t ht
        rw [← h3] at ho
        injection ho with ho2
        subst ho2
        exact (hinv t ht).1
      · intro c p2 o heq
        exact absurd heq (by simp)

set_option maxHeartbeats 400000 in
theorem jsmnLoop_inv (js : List Nat) (len num_tokens : Nat) :
    ∀ (d : Nat) (p : JsmnParser) (ts : List Jsmntok) (count : Int),
    len - p.pos ≤ d →
    (∀ t ∈ ts, TokInv js p.pos t) →
    (∀ (r : Int) (p2 : JsmnParser) (o : Option (List Jsmntok)),
      jsmnLoop js len num_tokens p (some ts) count = .err r p2 o →
      r < 0 ∧ ∀ ts2, o = some ts2 → ∀ t ∈ ts2, TokBase js t) ∧
    (∀ (c : Int) (p2 : JsmnParser) (o : Option (List Jsmntok)),
      jsmnLoop js len num_tokens p (some ts) count = .done c p2 o →
      ∀ ts2, o = some ts2 → ∀ t ∈ ts2, TokBase js t) := by
  intro d
  induction d with
  | zero =>
    intro p ts count hd hinv
    rw [jsmnLoop.eq_def, dif_neg (by rintro ⟨h1, -⟩; omega)]
    constructor
    · intro r p2 o heq
      exact absurd heq (by simp)
    · intro c p2 o heq ts2 ho t ht
      rw [LoopExit.done.injEq] at heq
      obtain ⟨-, -, h3⟩ := heq
      rw [← h3] at ho
      injection ho with ho2
      subst ho2
      exact (hinv t ht).1
  | succ m ih =>
    intro p ts count hd hinv
    by_cases hin : p.pos < len ∧ js.getD p.pos 0 ≠ CHAR_NULL
    case neg =>
      rw [jsmnLoop.eq_def, dif_neg hin]
      constructor
      · intro r p2 o heq
        exact absurd heq (by simp)
      · intro c p2 o heq ts2 ho t ht
        rw [LoopExit.done.injEq] at heq
        obtain ⟨-, -, h3⟩ := heq
        rw [← h3] at ho
        injection ho with ho2
        subst ho2
        exact (hinv t ht).1
    case pos =>
      rw [jsmnLoop.eq_def, dif_pos hin]
      by_cases hopen : js.getD p.pos 0 = CHAR_BRACE_OPEN ∨
          js.getD p.pos 0 = CHAR_BRACKET_OPEN
      · rw [dif_pos hopen]
        have hfuel : len - (p.pos + 1) ≤ m := by
          clear ih hinv
          omega
        have hinv2 : ∀ t ∈ jsmn_super_size_incr ts p.toksuper ++
            [{ type := if js.getD p.pos 0 = CHAR_BRACE_OPEN then
                 JsmnType.JSMN_OBJECT else .JSMN_ARRAY,
               start := (p.pos : Int), «end» := -1, size := 0 }],
            TokInv js (p.pos + 1) t := by
          intro t ht
          rcases List.mem_append.1 ht with h | h
          · obtain ⟨t0, ht0, he1, he2, he3⟩ :=
              mem_super_size_incr ts p.toksuper t h
            exact tokInv_congr js (p.pos + 1) t t0 he1 he2 he3
              (tokInv_mono js p.pos (p.pos + 1) t0 (hinv t0 ht0)
                (by omega))
          · rw [List.mem_singleton] at h
            subst h
            refine ⟨⟨by simp, Or.inl rfl, ?_⟩, by simp⟩
            intro hstr
            simp only at hstr
            split at hstr <;> simp at hstr
        constructor
        · intro r p2 o heq
          dsimp only at heq
          by_cases hcap : p.toknext < num_tokens
          · rw [if_pos hcap] at heq
            exact (ih _ _ _ hfuel hinv2).1 r p2 o heq
          · rw [if_neg hcap] at heq
            rw [LoopExit.err.injEq] at heq
            obtain ⟨h1, h2, h3⟩ := heq
            constructor
            · rw [← h1]; decide
            · intro ts2 ho t ht
              rw [← h3] at ho
              injection ho with ho2
              subst ho2
              exact (hinv t ht).1
        · intro c p2 o heq
          dsimp only at heq
          by_cases hcap : p.toknext < num_tokens
          · rw [if_pos hcap] at heq
            exact (ih _ _ _ hfuel hinv2).2 c p2 o heq
          · rw [if_neg hcap] at heq
            exact absurd heq (by simp)
      · rw [dif_neg hopen]
        by_cases hclose : js.getD p.pos 0 = CHAR_BRACE_CLOSE ∨
            js.getD p.pos 0 = CHAR_BRACKET_CLOSE
        · rw [dif_pos hclose]
          rcases hfo : jsmn_find_open ts p.toknext with _ | i
          · constructor
            · intro r p2 o heq
              dsimp only at heq
              rw [hfo] at heq
              dsimp only at heq
              rw [LoopExit.err.injEq] at heq
              obtain ⟨h1, h2, h3⟩ := heq
              refine ⟨by rw [← h1]; decide, ?_⟩
              intro ts2 ho t ht
              rw [← h3] at ho
              injection ho with ho2
              subst ho2
              exact (hinv t ht).1
            · intro c p2 o heq
              dsimp only at heq
              rw [hfo] at heq
              dsimp only at heq
              exact absurd heq (by simp)
          · have hlen := (jsmn_find_open_sound ts p.toknext i hfo).2
            have hti : TokInv js p.pos (ts.getD i default) := by
              rw [List.getD_eq_getElem ts default hlen]
              exact hinv _ (List.getElem_mem hlen)
            by_cases hty : (if js.getD p.pos 0 = CHAR_BRACE_CLOSE then
                JsmnType.JSMN_OBJECT else .JSMN_ARRAY) ≠
                (ts.getD i default).type
            · constructor
              · intro r p2 o heq
                dsimp only at heq
                rw [hfo] at heq
                dsimp only at heq
                rw [if_pos hty] at heq
                rw [LoopExit.err.injEq] at heq
                obtain ⟨h1, h2, h3⟩ := heq
                refine ⟨by rw [← h1]; decide, ?_⟩
                intro ts2 ho t ht
                rw [← h3] at ho
                injection ho with ho2
                subst ho2
                exact (hinv t ht).1
              · intro c p2 o heq
                dsimp only at heq
                rw [hfo] at heq
                dsimp only at heq
                rw [if_pos hty] at heq
                exact absurd heq (by simp)
            · have hfuel : len - (p.pos + 1) ≤ m := by
                clear ih hinv
                omega
              have hinv2 : ∀ t ∈ ts.set i
                  { ts.getD i default with «end» := (p.pos : Int) + 1 },
                  TokInv js (p.pos + 1) t := by
                intro t ht
                rcases List.mem_or_eq_of_mem_set ht with h | h
                · exact tokInv_mono js p.pos (p.pos + 1) t (hinv t h)
                    (by omega)
                · subst h
                  obtain ⟨⟨hb1, hb2, hb3⟩, hs⟩ := hti
                  push_neg at hty
                  refine ⟨⟨?_, ?_, ?_⟩, ?_⟩ <;> dsimp only
                  · exact hb1
                  · exact Or.inr (by omega)
                  · intro hstr
                    rw [← hty] at hstr
                    split at hstr <;> simp at hstr
                  · omega
              constructor
              · intro r p2 o heq
                dsimp only at heq
                rw [hfo] at heq
                dsimp only at heq
                rw [if_neg hty] at heq
                exact (ih _ _ _ hfuel hinv2).1 r p2 o heq
              · intro c p2 o heq
                dsimp only at heq
                rw [hfo] at heq
                dsimp only at heq
                rw [if_neg hty] at heq
                exact (ih _ _ _ hfuel hinv2).2 c p2 o heq
        · rw [dif_neg hclose]
          by_cases hquote : js.getD p.pos 0 = CHAR_QUOTE
          · rw [dif_pos hquote]
            rcases hsl : strLoop js len (p.pos + 1) with q | _ | _
            · obtain ⟨hq1, hq2⟩ :=
                strLoop_closed_facts js len (p.pos + 1) q hsl
              by_cases hcap : p.toknext < num_tokens
              · have hps : jsmn_parse_string p js len (some ts)
                    num_tokens =
                    (0, { p with pos := q, toknext := p.toknext + 1 },
                     some (ts ++
                       [{ type := JsmnType.JSMN_STRING,
                          start := (p.pos : Int) + 1,
                          «end» := (q : Int), size := 0 }])) := by
                  simp only [jsmn_parse_string, hsl]
                  rw [if_pos hcap]
                rw [hps]
                dsimp only
                rw [dif_neg (by decide : ¬((0 : Int) < 0))]
                rw [child_size_incr_some]
                have hfuel : len - (q + 1) ≤ m := by
                  clear ih hinv
                  omega
                have hinv2 : ∀ t ∈ jsmn_super_size_incr
                    (ts ++ [{ type := JsmnType.JSMN_STRING,
                              start := (p.pos : Int) + 1,
                              «end» := (q : Int), size := 0 }])
                    p.toksuper, TokInv js (q + 1) t := by
                  intro t ht
                  obtain ⟨t0, ht0, he1, he2, he3⟩ :=
                    mem_super_size_incr _ _ t ht
                  rcases List.mem_append.1 ht0 with hA | hB
                  · exact tokInv_congr js (q + 1) t t0 he1 he2 he3
                      (tokInv_mono js p.pos (q + 1) t0 (hinv t0 hA)
                        (by omega))
                  · rw [List.mem_singleton] at hB
                    subst hB
                    refine tokInv_congr js (q + 1) t _ he1 he2 he3 ?_
                    refine ⟨⟨?_, ?_, ?_⟩, ?_⟩ <;> dsimp only
                    · omega
                    · exact Or.inr (by omega)
                    · intro hstr
                      refine ⟨by omega, by omega, ?_, ?_⟩
                      · have he : ((p.pos : Int) + 1 - 1).toNat =
                            p.pos := by omega
                        rw [he]
                        exact hquote
                      · have he : ((q : Nat) : Int).toNat = q := by
                          omega
                        rw [he]
                        exact hq2
                    · omega
                exact ih _ _ _ hfuel hinv2
              · have hps : jsmn_parse_string p js len (some ts)
                    num_tokens =
                    (JSMN_ERROR_NOMEM, { p with pos := p.pos },
                     some ts) := by
                  simp only [jsmn_parse_string, hsl]
                  rw [if_neg hcap]
                rw [hps]
                dsimp only
                rw [dif_pos (by decide : (JSMN_ERROR_NOMEM : Int) < 0)]
                constructor
                · intro r p2 o heq
                  rw [LoopExit.err.injEq] at heq
                  obtain ⟨h1, h2, h3⟩ := heq
                  refine ⟨by rw [← h1]; decide, ?_⟩
                  intro ts2 ho t ht
                  rw [← h3] at ho
                  injection ho with ho2
                  subst ho2
                  exact (hinv t ht).1
                · intro c p2 o heq
                  exact absurd heq (by simp)
            · have hps : jsmn_parse_string p js len (some ts)
                  num_tokens =
                  (JSMN_ERROR_INVAL, { p with pos := p.pos },
                   some ts) := by
                simp only [jsmn_parse_string, hsl]
              rw [hps]
              dsimp only
              rw [dif_pos (by decide : (JSMN_ERROR_INVAL : Int) < 0)]
              constructor
              · intro r p2 o heq
                rw [LoopExit.err.injEq] at heq
                obtain ⟨h1, h2, h3⟩ := heq
                refine ⟨by rw [← h1]; decide, ?_⟩
                intro ts2 ho t ht
                rw [← h3] at ho
                injection ho with ho2
                subst ho2
                exact (hinv t ht).1
              · intro c p2 o heq
                exact absurd heq (by simp)
            · have hps : jsmn_parse_string p js len (some ts)
                  num_tokens =
                  (JSMN_ERROR_PART, { p with pos := p.pos },
                   some ts) := by
                simp only [jsmn_parse_string, hsl]
              rw [hps]
              dsimp only
              rw [dif_pos (by decide : (JSMN_ERROR_PART : Int) < 0)]
              constructor
              · intro r p2 o heq
                rw [LoopExit.err.injEq] at heq
                obtain ⟨h1, h2, h3⟩ := heq
                refine ⟨by rw [← h1]; decide, ?_⟩
                intro ts2 ho t ht
                rw [← h3] at ho
                injection ho with ho2
                subst ho2
                exact (hinv t ht).1
              · intro c p2 o heq
                exact absurd heq (by simp)
          · rw [dif_neg hquote]
            by_cases hws : js.getD p.pos 0 = CHAR_HTAB ∨
                js.getD p.pos 0 = CHAR_CR ∨ js.getD p.pos 0 = CHAR_LF ∨
                js.getD p.pos 0 = CHAR_SPACE
            · rw [dif_pos hws]
              exact ih _ _ _ (by dsimp only; omega)
                (fun t ht => tokInv_mono js p.pos (p.pos + 1) t
                  (hinv t ht) (by omega))
            · rw [dif_neg hws]
              by_cases hcolon : js.getD p.pos 0 = CHAR_COLON
              · rw [dif_pos hcolon]
                exact ih _ _ _ (by dsimp only; omega)
                  (fun t ht => tokInv_mono js p.pos (p.pos + 1) t
                    (hinv t ht) (by omega))
              · rw [dif_neg hcolon]
                by_cases hcomma : js.getD p.pos 0 = CHAR_COMMA
                · rw [dif_pos hcomma]
                  exact ih
                    { pos := p.pos + 1, toknext := p.toknext,
                      toksuper := jsmn_comma_super_opt (some ts)
                        p.toknext p.toksuper } ts count
                    (by
                      clear hcomma hcolon hws hquote hclose hopen hinv ih
                      dsimp only
                      omega)
                    (fun t ht => tokInv_mono js p.pos (p.pos + 1) t
                      (hinv t ht) (by omega))
                · rw [dif_neg hcomma]
                  have hnd : isPrimDelim (js.getD p.pos 0) =
                      false := by
                    push_neg at hclose hws
                    simp only [isPrimDelim, Bool.or_eq_false_iff,
                      decide_eq_false_iff_not]
                    exact ⟨⟨⟨⟨⟨⟨⟨hcolon, hws.1⟩, hws.2.1⟩,
                      hws.2.2.1⟩, hws.2.2.2⟩, hcomma⟩,
                      hclose.2⟩, hclose.1⟩
                  exact jsmnLoop_inv_prim js len num_tokens m ih
                    p ts count hd hinv hin hnd

/-- Outcome of a whole parse run from a fresh parser with a token
array: when the returned code is nonnegative every returned token
satisfies the per-token facts and none is left open. -/
theorem jsmn_parse_post (js : List Nat) (len num_tokens : Nat)
    (r : Int) (p2 : JsmnParser) (ts2 : List Jsmntok)
    (h : jsmn_parse jsmn_init js len (some []) num_tokens =
      (r, p2, some ts2))
    (hr : 0 ≤ r) :
    ∀ t ∈ ts2, TokBase js t ∧ isOpenTok t = false := by
  have hmain := jsmnLoop_inv js len num_tokens (len - jsmn_init.pos)
    jsmn_init [] ((jsmn_init.toknext : Int)) (le_refl _)
    (by intro t ht; exact absurd ht (List.not_mem_nil t))
  simp only [jsmn_parse] at h
  rcases hle : jsmnLoop js len num_tokens jsmn_init (some [])
      ((jsmn_init.toknext : Int)) with ⟨re, pe, oe⟩ | ⟨ce, pe, oe⟩
  · rw [hle] at h
    dsimp only at h
    rw [Prod.mk.injEq] at h
    have hlt := (hmain.1 re pe oe hle).1
    have h1 := h.1
    exact absurd hr (by clear hmain hle h; omega)
  · rw [hle] at h
    dsimp only at h
    rcases oe with _ | tse
    · simp at h
    · dsimp only at h
      by_cases hany : tse.any isOpenTok = true
      · rw [if_pos hany] at h
        rw [Prod.mk.injEq] at h
        have h1 := h.1
        rw [← h1] at hr
        exact absurd hr (by decide)
      · rw [if_neg hany] at h
        rw [Prod.mk.injEq] at h
        obtain ⟨h1, h23⟩ := h
        rw [Prod.mk.injEq] at h23
        obtain ⟨h2, h3⟩ := h23
        injection h3 with h4
        subst h4
        rw [Bool.not_eq_true, List.any_eq_false] at hany
        intro t ht
        exact ⟨hmain.2 ce pe (some tse) hle tse rfl t ht,
          Bool.eq_false_iff.2 (hany t ht)⟩

/-- Claim C9: once jsmn_parse with a non-null token array returns a
nonnegative token count from a fresh parser, every produced token
carries 0 <= start <= end; a token whose closing delimiter has not
been reached keeps the sentinel end = -1 and is caught by the final
unset-end check, so it never reaches a successful return. -/
theorem claim_C9 (js : List Nat) (len num_tokens : Nat) (r : Int)
    (p2 : JsmnParser) (ts2 : List Jsmntok)
    (h : jsmn_parse jsmn_init js len (some []) num_tokens =
      (r, p2, some ts2))
    (hr : 0 ≤ r) :
    ∀ t ∈ ts2, 0 ≤ t.start ∧ t.start ≤ t.«end» := by
  intro t ht
  obtain ⟨⟨hb1, hb2, hb3⟩, hop⟩ := jsmn_parse_post js len num_tokens
    r p2 ts2 h hr t ht
  clear h
  refine ⟨hb1, ?_⟩
  rcases hb2 with he | he
  · exfalso
    simp [isOpenTok, he] at hop
    omega
  · exact he

theorem claim_C9_witness :
    0 ≤ (1 : Int) ∧
    ∀ t ∈ [({ type := .JSMN_OBJECT, start := 0, «end» := 2,
              size := 0 } : Jsmntok)],
      0 ≤ t.start ∧ t.start ≤ t.«end» :=
  ⟨by decide,
   claim_C9 [123, 125] 2 4 1 ⟨2, 1, -1⟩ _
     (by simp [jsmn_parse, jsmnLoop, jsmn_init, jsmn_find_open,
           findOpenDown, jsmn_close_super, jsmn_comma_super,
           jsmn_comma_super_opt, jsmn_super_size_incr,
           jsmn_child_size_incr, sizeIncr, isOpenTok,
           CHAR_QUOTE, CHAR_BACKSLASH, CHAR_UNICODE, CHAR_BRACE_OPEN,
           CHAR_BRACE_CLOSE, CHAR_BRACKET_OPEN, CHAR_BRACKET_CLOSE,
           CHAR_COLON, CHAR_COMMA, CHAR_SPACE, CHAR_NULL, CHAR_LF,
           CHAR_CR, CHAR_HTAB])
     (by decide)⟩

/-- Claim C8: on every successful parse from a fresh parser, a String
token starts one byte after an opening quote of the source, ends on a
closing quote, and its span is exactly the raw source bytes strictly
between those two quotes, taken from the source without any
transformation of escape sequences. -/
theorem claim_C8 (js : List Nat) (len num_tokens : Nat) (r : Int)
    (p2 : JsmnParser) (ts2 : List Jsmntok)
    (h : jsmn_parse jsmn_init js len (some []) num_tokens =
      (r, p2, some ts2))
    (hr : 0 ≤ r) :
    ∀ t ∈ ts2, t.type = .JSMN_STRING →
      1 ≤ t.start ∧ t.start ≤ t.«end» ∧
      js.getD (t.start - 1).toNat 0 = CHAR_QUOTE ∧
      js.getD t.«end».toNat 0 = CHAR_QUOTE ∧
      tokenSlice js t =
        ((js.take t.«end».toNat).drop (t.start - 1).toNat).drop 1 := by
  intro t ht hstr
  obtain ⟨⟨hb1, hb2, hb3⟩, hop⟩ := jsmn_parse_post js len num_tokens
    r p2 ts2 h hr t ht
  clear h
  obtain ⟨h1, h2, h3, h4⟩ := hb3 hstr
  refine ⟨h1, h2, h3, h4, ?_⟩
  simp only [tokenSlice]
  rw [List.drop_drop]
  have he : t.start.toNat = (t.start - 1).toNat + 1 := by
    clear hop
    omega
  rw [he]

theorem claim_C8_witness :
    0 ≤ (3 : Int) ∧
    ∀ t ∈ [(⟨.JSMN_OBJECT, 0, 7, 1⟩ : Jsmntok),
           ⟨.JSMN_STRING, 2, 3, 1⟩, ⟨.JSMN_PRIMITIVE, 5, 6, 0⟩],
      t.type = .JSMN_STRING →
      1 ≤ t.start ∧ t.start ≤ t.«end» ∧
      [123, 34, 97, 34, 58, 49, 125].getD (t.start - 1).toNat 0 =
        CHAR_QUOTE ∧
      [123, 34, 97, 34, 58, 49, 125].getD t.«end».toNat 0 =
        CHAR_QUOTE ∧
      tokenSlice [123, 34, 97, 34, 58, 49, 125] t =
        (([123, 34, 97, 34, 58, 49, 125].take t.«end».toNat).drop
          (t.start - 1).toNat).drop 1 :=
  ⟨by decide,
   claim_C8 [123, 34, 97, 34, 58, 49, 125] 7 4 3 ⟨7, 3, -1⟩ _
     (by simp [jsmn_parse, jsmnLoop, jsmn_init, jsmn_find_open,
           findOpenDown, jsmn_close_super, jsmn_comma_super,
           jsmn_comma_super_opt, jsmn_super_size_incr,
           jsmn_child_size_incr, sizeIncr, isOpenTok,
           jsmn_parse_string, strLoop, isEscapeChar, isHexDigit,
           hexScan, jsmn_parse_primitive, primLoop, isPrimDelim,
           CHAR_QUOTE, CHAR_BACKSLASH, CHAR_UNICODE, CHAR_BRACE_OPEN,
           CHAR_BRACE_CLOSE, CHAR_BRACKET_OPEN, CHAR_BRACKET_CLOSE,
           CHAR_COLON, CHAR_COMMA, CHAR_SPACE, CHAR_NULL, CHAR_LF,
           CHAR_CR, CHAR_HTAB, ASCII_PRINTABLE_MIN,
           ASCII_PRINTABLE_MAX, UNICODE_HEX_DIGITS])
     (by decide)⟩
